import Mathlib

/-!
Verification development for the GraphQL-to-OpenAPI conversion engine.

The conversion engine is a Go package (`package converter`).  This file gives a
shallow embedding of that package: the GraphQL AST shape the engine consumes
(the subset of `github.com/vektah/gqlparser/v2/ast` the engine reads), the
OpenAPI document structures it produces (`types.go`), and the conversion
functions themselves (`converter.go`), translated function by function.

Strings are modelled as `List Char` (Go strings are byte strings; all string
operations the engine performs are ASCII-safe, so a character-list model is
faithful on the inputs of interest).  Go maps are modelled as association
lists with insert-overwrite semantics; Go map iteration order is unspecified,
the association-list order stands in for one concrete iteration order.
-/

set_option autoImplicit false

namespace GqlToOpenapi

/-- Strings of the embedding: lists of characters. -/
abbrev Str := List Char

/-- Turn a Lean string literal into the embedding's string type. -/
def str (s : String) : Str := s.data

/-- Go `strings.HasPrefix s p`. -/
def hasPrefixL : Str → Str → Bool
  | _, [] => true
  | [], _ :: _ => false
  | c :: s, p :: ps => c = p && hasPrefixL s ps

/-- Go `strings.HasSuffix s p`. -/
def hasSuffixL (s p : Str) : Bool := hasPrefixL s.reverse p.reverse

/-- Go `strings.TrimPrefix s p`. -/
def trimPrefixL (s p : Str) : Str := if hasPrefixL s p then s.drop p.length else s

/-- Go `strings.TrimSuffix s p`. -/
def trimSuffixL (s p : Str) : Str := if hasSuffixL s p then s.take (s.length - p.length) else s

/-- ASCII whitespace recognizer (the subset of `unicode.IsSpace` we need). -/
def isSpaceC (c : Char) : Bool := c = ' ' || c = '\t' || c = '\n' || c = '\r'

/-- Go `strings.TrimSpace`. -/
def trimSpaceL (s : Str) : Str :=
  ((s.dropWhile isSpaceC).reverse.dropWhile isSpaceC).reverse

/-- Go `strings.Trim(s, "\"")`: strip all leading and trailing quote characters. -/
def trimQuoteL (s : Str) : Str :=
  ((s.dropWhile (· = '"')).reverse.dropWhile (· = '"')).reverse

/-- Go `strings.ToLower` (ASCII). -/
def toLowerL (s : Str) : Str := s.map Char.toLower

/-- Go `strings.Index s pat`: offset of the first occurrence, `none` for Go's `-1`. -/
def indexOfL : Str → Str → Option Nat
  | s, pat =>
    if hasPrefixL s pat then some 0
    else match s with
      | [] => none
      | _ :: t => (indexOfL t pat).map (· + 1)

/-- Go `strings.Contains`. -/
def containsL (s pat : Str) : Bool := (indexOfL s pat).isSome

/-- Go `strings.Count s pat` (non-overlapping), for a non-empty pattern;
`go` consumes whole matches at once. -/
def countSubstrL (s pat : Str) : Nat :=
  if pat.isEmpty then s.length + 1 else go s
where
  go : Str → Nat
    | [] => 0
    | c :: t =>
      if hasPrefixL (c :: t) pat then (go (t.drop (pat.length - 1))) + 1
      else go t
  termination_by l => l.length
  decreasing_by
    · simp only [List.length_cons, List.length_drop]
      omega
    · simp

/-- Go `strings.Split s (string sep)` for a one-character separator. -/
def splitOnCharL (sep : Char) : Str → List Str
  | [] => [[]]
  | c :: t =>
    let r := splitOnCharL sep t
    if c = sep then [] :: r
    else match r with
      | [] => [[c]]
      | h :: t' => (c :: h) :: t'

/-- Go `strings.Join xs sep`. -/
def joinL (xs : List Str) (sep : Str) : Str := sep.intercalate xs

/-! ### Association lists standing in for Go maps -/

/-- Go map assignment `m[k] = v`: replace the binding if the key is present,
otherwise append. -/
def insertKV {β : Type} : List (Str × β) → Str → β → List (Str × β)
  | [], k, v => [(k, v)]
  | (k', v') :: rest, k, v =>
    if k' = k then (k, v) :: rest else (k', v') :: insertKV rest k v

/-- Go map read `m[k]` returning an option. -/
def lookupKV {β : Type} : List (Str × β) → Str → Option β
  | [], _ => none
  | (k', v') :: rest, k => if k' = k then some v' else lookupKV rest k

/-- Go map read of a `map[string]bool` (missing keys read as `false`). -/
def lookupFlag (m : List (Str × Bool)) (k : Str) : Bool := (lookupKV m k).getD false

/-! ### The GraphQL AST consumed by the engine (`gqlparser/v2/ast`) -/

/-- `ast.DefinitionKind` values the engine distinguishes. -/
inductive TypeKind where
  | object | inputObject | enum | union | interface | scalar
  deriving DecidableEq, Repr

/-- `ast.Type`: either a named type or a list type, each with a non-null flag. -/
inductive GqlType where
  | named (name : Str) (nonNull : Bool)
  | list (elem : GqlType) (nonNull : Bool)
  deriving DecidableEq, Repr

namespace GqlType

/-- Go `t.Elem` (`nil` for named types). -/
def elem? : GqlType → Option GqlType
  | named _ _ => none
  | list e _ => some e

/-- Go `t.NamedType` (the empty string for list types). -/
def namedType : GqlType → Str
  | named n _ => n
  | list _ _ => []

/-- Go `t.NonNull`. -/
def nonNull : GqlType → Bool
  | named _ nn => nn
  | list _ nn => nn

/-- Go `t.Name()`: the innermost named type. -/
def name : GqlType → Str
  | named n _ => n
  | list e _ => name e

end GqlType

/-- One directive argument: `ast.Argument` with its `ast.Value`.  `raw` is
`Value.Raw` (unquoted content); `isString` records whether the value is a
string value, so that `Value.String()` re-quotes it. -/
structure DirArg where
  name : Str
  raw : Str
  isString : Bool
  deriving DecidableEq, Repr

/-- Go `arg.Value.String()`: string values render quoted, other kinds render raw. -/
def valueString (a : DirArg) : Str :=
  if a.isString then '"' :: (a.raw ++ ['"']) else a.raw

/-- `ast.Directive`. -/
structure Directive where
  name : Str
  args : List DirArg
  deriving DecidableEq, Repr

/-- `ast.ArgumentDefinition`. -/
structure ArgDef where
  name : Str
  description : Str
  type : GqlType
  deriving DecidableEq, Repr

/-- `ast.FieldDefinition`. -/
structure FieldDef where
  name : Str
  description : Str
  type : GqlType
  args : List ArgDef
  directives : List Directive
  deriving DecidableEq, Repr

/-- `ast.Definition` (a type declaration). -/
structure TypeDef where
  name : Str
  kind : TypeKind
  description : Str
  fields : List FieldDef
  enumValues : List Str
  unionTypes : List Str
  directives : List Directive
  deriving DecidableEq, Repr

/-- `ast.Schema`: the declared types plus the root operation type names.
Go stores root types as pointers into the types map; we store the names and
resolve them by lookup, which matches pointer semantics because the engine
mutates only field names, never type names. -/
structure GqlSchema where
  types : List TypeDef
  queryName : Option Str
  mutationName : Option Str
  subscriptionName : Option Str
  deriving DecidableEq, Repr

/-- Go `c.schema.Types[n]` (first declaration wins; names are unique in a
parsed schema). -/
def lookupType (sch : GqlSchema) (n : Str) : Option TypeDef :=
  sch.types.find? (fun td => td.name = n)

/-- Go `directives.ForName n`: first directive with the given name. -/
def findDirective (ds : List Directive) (n : Str) : Option Directive :=
  ds.find? (fun d => d.name = n)

/-- Go `arguments.ForName n` on directive arguments. -/
def findDirArg (as' : List DirArg) (n : Str) : Option DirArg :=
  as'.find? (fun a => a.name = n)

/-! ### The OpenAPI document structures (`types.go`) -/

/-- `Schema` from `types.go`.  `minimum`/`maximum` hold parsed numeric
constraint values (Go `*float64`, modelled as rationals; no claim inspects
their numeric value). -/
structure OASchema where
  type : Str := []
  format : Str := []
  description : Str := []
  properties : List (Str × OASchema) := []
  required : List Str := []
  items : Option OASchema := none
  ref : Str := []
  deprecated : Bool := false
  enum : List Str := []
  oneOf : List OASchema := []
  minLength : Option Int := none
  maxLength : Option Int := none
  minimum : Option Rat := none
  maximum : Option Rat := none
  pattern : Str := []

/-- The all-empty `Schema` value (Go's zero value; structure-instance
defaults cannot mention the recursive fields, so spell it out once). -/
def emptySchema : OASchema :=
  { type := [], format := [], description := [], properties := [], required := [],
    items := none, ref := [], deprecated := false, enum := [], oneOf := [],
    minLength := none, maxLength := none, minimum := none, maximum := none,
    pattern := [] }

/-- `Parameter` from `types.go` (`in` is a Go keyword-free field name there;
`loc` here). -/
structure Parameter where
  name : Str := []
  loc : Str := []
  description : Str := []
  required : Bool := false
  schema : Option OASchema := none
  style : Str := []
  explode : Bool := false

/-- `MediaType` from `types.go`. -/
structure MediaType where
  schema : Option OASchema := none

/-- `RequestBody` from `types.go`. -/
structure RequestBody where
  description : Str := []
  required : Bool := false
  content : List (Str × MediaType) := []

/-- `Response` from `types.go`. -/
structure Response where
  description : Str := []
  content : List (Str × MediaType) := []

/-- `Operation` from `types.go`. -/
structure Operation where
  operationId : Str := []
  summary : Str := []
  description : Str := []
  parameters : List Parameter := []
  requestBody : Option RequestBody := none
  responses : List (Str × Response) := []
  deprecated : Bool := false

/-- `PathItem` from `types.go`. -/
structure PathItem where
  get : Option Operation := none
  post : Option Operation := none
  put : Option Operation := none
  delete : Option Operation := none
  patch : Option Operation := none
  options : Option Operation := none

/-- `Info` from `types.go`. -/
structure Info where
  title : Str := []
  description : Str := []
  version : Str := []

/-- `Server` from `types.go`. -/
structure Server where
  url : Str := []
  description : Str := []

/-- `Components` from `types.go`. -/
structure Components where
  schemas : List (Str × OASchema) := []

/-- `OpenAPIDocument` from `types.go`. -/
structure OpenAPIDocument where
  openapi : Str := []
  info : Info := {}
  servers : List Server := []
  paths : List (Str × PathItem) := []
  components : Components := {}

/-! ### Configuration (`Config` in `converter.go`) -/

/-- `Config`.  Field names ending in reserved words are suffixed with `Cfg`. -/
structure Config where
  title : Str
  version : Str
  baseURL : Str
  pathPrefixCfg : Str
  detectRESTPatternsCfg : Bool
  customPlurals : List (Str × Str)
  pluralizeSuffixesES : List Str
  pluralizeSuffixIES : Str
  pluralizeDefaultSuffix : Str
  crudPrefixCreate : Str
  crudPrefixUpdate : Str
  crudPrefixDelete : Str

/-- The documented defaults of the configuration surface. -/
def defaultConfig : Config where
  title := str "Converted from GraphQL"
  version := str "1.0.0"
  baseURL := []
  pathPrefixCfg := []
  detectRESTPatternsCfg := true
  customPlurals := []
  pluralizeSuffixesES := [str "s", str "x", str "z", str "ch", str "sh"]
  pluralizeSuffixIES := str "y"
  pluralizeDefaultSuffix := str "s"
  crudPrefixCreate := str "create"
  crudPrefixUpdate := str "update"
  crudPrefixDelete := str "delete"

/-! ### Naming heuristics -/

/-- `isVowel` from `converter.go`. -/
def isVowel (r : Char) : Bool :=
  r = 'a' || r = 'e' || r = 'i' || r = 'o' || r = 'u' ||
  r = 'A' || r = 'E' || r = 'I' || r = 'O' || r = 'U'

/-- `isBuiltInType` from `converter.go`. -/
def isBuiltInType (n : Str) : Bool :=
  n = str "Query" || n = str "Mutation" || n = str "Subscription" ||
  hasPrefixL n (str "__")

/-- `isScalarType` from `converter.go`. -/
def isScalarType (n : Str) : Bool :=
  n = str "Int" || n = str "Float" || n = str "String" ||
  n = str "Boolean" || n = str "ID"

/-- The guard of the `"y" -> "ies"` branch of `pluralize`. -/
def iesGuard (cfg : Config) (word : Str) : Bool :=
  !cfg.pluralizeSuffixIES.isEmpty && hasSuffixL word cfg.pluralizeSuffixIES &&
  decide (word.length > 1) && !isVowel (word.getD (word.length - 2) ' ')

/-- `pluralize` from `converter.go`. -/
def pluralize (cfg : Config) (word : Str) : Str :=
  match cfg.customPlurals.find? (fun p => hasSuffixL word p.1) with
  | some p => trimSuffixL word p.1 ++ p.2
  | none =>
    match cfg.pluralizeSuffixesES.find? (fun suf => hasSuffixL word suf) with
    | some _ => word ++ str "es"
    | none =>
      if iesGuard cfg word then word.take (word.length - 1) ++ str "ies"
      else word ++ cfg.pluralizeDefaultSuffix

/-- `singularize` from `converter.go`. -/
def singularize (cfg : Config) (word : Str) : Str :=
  match cfg.customPlurals.find? (fun p => hasSuffixL word p.2) with
  | some p => trimSuffixL word p.2 ++ p.1
  | none =>
    if !cfg.pluralizeSuffixIES.isEmpty && hasSuffixL word (str "ies") &&
        decide (word.length > 3) then
      word.take (word.length - 3) ++ cfg.pluralizeSuffixIES
    else if hasSuffixL word (str "es") && decide (word.length > 2) then
      let base := word.take (word.length - 2)
      match cfg.pluralizeSuffixesES.find? (fun suf => hasSuffixL base suf) with
      | some _ => base
      | none => word.take (word.length - 1)
    else if hasSuffixL word cfg.pluralizeDefaultSuffix && decide (word.length > 1) then
      word.take (word.length - cfg.pluralizeDefaultSuffix.length)
    else word

/-- `capitalize` from `converter.go` (Go upcases the first byte; first
character here). -/
def capitalizeL : Str → Str
  | [] => []
  | c :: t => c.toUpper :: t

/-- `uncapitalize` from `converter.go`. -/
def uncapitalizeL : Str → Str
  | [] => []
  | c :: t => c.toLower :: t

/-- `camelToTitle` from `converter.go`. -/
def camelToTitle : Str → Str
  | [] => []
  | c :: t =>
    c.toUpper :: t.flatMap (fun r => if 'A' ≤ r && r ≤ 'Z' then [' ', r] else [r])

/-- The action-verb prefixes recognized by `addFieldNamePrefix`. -/
def actionVerbs : List Str :=
  [str "List ", str "Get ", str "Fetch ", str "Retrieve ", str "Find ",
   str "Create ", str "Add ", str "Insert ", str "Post ",
   str "Update ", str "Modify ", str "Edit ", str "Put ", str "Patch ",
   str "Delete ", str "Remove ", str "Destroy ",
   str "Search ", str "Query ", str "Filter "]

/-- `addFieldNamePrefix` from `converter.go`. -/
def addFieldNamePrefix (fieldName description : Str) : Str :=
  if description.isEmpty then camelToTitle fieldName
  else if actionVerbs.any (fun v => hasPrefixL description v) then description
  else camelToTitle fieldName ++ str " - " ++ description

/-- The sentence delimiters of `splitDescription`, in priority order. -/
def punctuationsL : List Str :=
  [str ". ", str "! ", str "? ", str ": ", str "; ", str " - "]

/-- The scan of `splitDescription`: earliest occurrence wins, ties by list
order (Go keeps an index only when strictly smaller). -/
def firstPunct (text : Str) : Option (Nat × Nat) :=
  punctuationsL.foldl
    (fun best punc =>
      match indexOfL text punc with
      | none => best
      | some idx =>
        match best with
        | none => some (idx, punc.length)
        | some (bi, _) => if idx < bi then some (idx, punc.length) else best)
    none

/-- `splitDescription` from `converter.go`: returns `(summary, description)`. -/
def splitDescription (text : Str) : Str × Str :=
  if text.isEmpty then ([], [])
  else
    match firstPunct text with
    | none => (text, text)
    | some (idx, plen) =>
      let summary :=
        if plen = 3 then trimSpaceL (text.take idx) else trimSpaceL (text.take (idx + 1))
      (summary, trimSpaceL text)

/-- `addPrefix` from `converter.go`. -/
def prefixedPath (cfg : Config) (path : Str) : Str :=
  if !cfg.pathPrefixCfg.isEmpty then cfg.pathPrefixCfg ++ path else path

/-! ### Directive processors -/

/-- `parseInt` from `converter.go` (`fmt.Sscanf "%d"`): an optional sign
followed by at least one digit; trailing characters are ignored. -/
def parseIntL (s : Str) : Option Int :=
  let (neg, ds) :=
    match s with
    | '-' :: rest => (true, rest)
    | '+' :: rest => (false, rest)
    | _ => (false, s)
  let digits := ds.takeWhile Char.isDigit
  if digits.isEmpty then none
  else
    let n : Nat := digits.foldl (fun acc c => acc * 10 + (c.toNat - '0'.toNat)) 0
    some (if neg then -(n : Int) else (n : Int))

/-- `parseFloat` from `converter.go` (`fmt.Sscanf "%f"`): an optional sign,
digits, and an optional fractional part; trailing characters are ignored. -/
def parseFloatL (s : Str) : Option Rat :=
  let (neg, ds) :=
    match s with
    | '-' :: rest => (true, rest)
    | '+' :: rest => (false, rest)
    | _ => (false, s)
  let digits := ds.takeWhile Char.isDigit
  if digits.isEmpty then none
  else
    let intPart : Nat := digits.foldl (fun acc c => acc * 10 + (c.toNat - '0'.toNat)) 0
    let rest := ds.drop digits.length
    let frac : Rat :=
      match rest with
      | '.' :: fs =>
        let fds := fs.takeWhile Char.isDigit
        (fds.foldl (fun acc c => acc * 10 + (c.toNat - '0'.toNat)) 0 : Rat) /
          ((10 : Rat) ^ fds.length)
      | _ => 0
    let v : Rat := (intPart : Rat) + frac
    some (if neg then -v else v)

/-- `applyConstraints` from `converter.go`: iterate the directive's arguments
in order, copying recognized constraint arguments into the schema. -/
def applyConstraints (schema : OASchema) (directive : Directive) : OASchema :=
  directive.args.foldl
    (fun sc arg =>
      let raw := trimQuoteL arg.raw
      if arg.name = str "minLength" then
        match parseIntL raw with
        | some v => { sc with minLength := some v }
        | none => sc
      else if arg.name = str "maxLength" then
        match parseIntL raw with
        | some v => { sc with maxLength := some v }
        | none => sc
      else if arg.name = str "min" then
        match parseFloatL raw with
        | some v => { sc with minimum := some v }
        | none => sc
      else if arg.name = str "max" then
        match parseFloatL raw with
        | some v => { sc with maximum := some v }
        | none => sc
      else if arg.name = str "pattern" then { sc with pattern := raw }
      else if arg.name = str "format" then { sc with format := raw }
      else sc)
    schema

/-- `applySpecifiedBy` from `converter.go`. -/
def applySpecifiedBy (schema : OASchema) (url : Str) : OASchema :=
  let schema :=
    if containsL url (str "rfc4122") || containsL (toLowerL url) (str "uuid") then
      { schema with format := str "uuid" }
    else if containsL (toLowerL url) (str "date-time") then
      { schema with format := str "date-time" }
    else schema
  if !schema.description.isEmpty then
    { schema with description := schema.description ++ str "\n\nSpec: " ++ url }
  else
    { schema with description := str "Spec: " ++ url }

/-- The `deprecated`-directive handling shared by `convertType`'s field loop. -/
def applyDeprecatedField (f : FieldDef) (p : OASchema) : OASchema :=
  match findDirective f.directives (str "deprecated") with
  | none => p
  | some d =>
    let p := { p with deprecated := true }
    match findDirArg d.args (str "reason") with
    | none => p
    | some r =>
      { p with description :=
          camelToTitle f.name ++ str " - DEPRECATED: " ++ trimQuoteL (valueString r) }

/-- The `deprecated`-directive handling shared by the three operation
converters (`convertQueryField`, `convertMutationField`,
`convertSubscriptionField` contain the identical block). -/
def applyDeprecatedOp (f : FieldDef) (op : Operation) : Operation :=
  match findDirective f.directives (str "deprecated") with
  | none => op
  | some d =>
    let op := { op with deprecated := true }
    match findDirArg d.args (str "reason") with
    | none => op
    | some r =>
      let dr := str "DEPRECATED: " ++ trimQuoteL (valueString r)
      { op with
        summary := dr,
        description := if !op.description.isEmpty then dr ++ str "\n\n" ++ op.description
                       else dr }

/-! ### The type mapper (`convertFieldType`) -/

/-- `convertFieldType` from `converter.go`. -/
def convertFieldType (sch : GqlSchema) : GqlType → OASchema
  | .list e _ =>
    { emptySchema with type := str "array", items := some (convertFieldType sch e) }
  | .named typeName _ =>
    if typeName = str "Int" then
      { emptySchema with type := str "integer", format := str "int32" }
    else if typeName = str "Float" then
      { emptySchema with type := str "number", format := str "double" }
    else if typeName = str "String" then { emptySchema with type := str "string" }
    else if typeName = str "Boolean" then { emptySchema with type := str "boolean" }
    else if typeName = str "ID" then { emptySchema with type := str "string" }
    else if isBuiltInType typeName then { emptySchema with type := str "object" }
    else
      match lookupType sch typeName with
      | some td =>
        if td.kind = .object || td.kind = .inputObject || td.kind = .enum ||
            td.kind = .union || td.kind = .interface then
          { emptySchema with ref := str "#/components/schemas/" ++ typeName }
        else { emptySchema with type := str "string" }
      | none => { emptySchema with type := str "string" }

/-! ### The type converter -/

/-- The replacement schema for a non-list object-reference field
(`convertType`, object-reference branch).  `tn` is the referenced type name,
`origName` the field's original name. -/
def refReplacementSchema (cfg : Config) (tn origName : Str) : OASchema :=
  { emptySchema with
    type := str "string",
    description := str "Reference to " ++ tn ++ str ".id - use GET /" ++
      pluralize cfg (toLowerL tn) ++ str "/\x7b" ++ origName ++ str "Id\x7d" }

/-- One iteration of `convertType`'s field loop: the optional
`(property key, property schema)` to insert, and the field as it is left in
the AST (the object-reference branch mutates `field.Name`). -/
def processField (cfg : Config) (sch : GqlSchema) (f : FieldDef) :
    Option (Str × OASchema) × FieldDef :=
  let p := convertFieldType sch f.type
  let p := if !f.description.isEmpty then
             { p with description := addFieldNamePrefix f.name f.description }
           else p
  let p := applyDeprecatedField f p
  let p := match findDirective f.directives (str "constraint") with
           | some d => applyConstraints p d
           | none => p
  let p := match lookupType sch f.type.name with
           | some td =>
             match findDirective td.directives (str "specifiedBy") with
             | some d =>
               match findDirArg d.args (str "url") with
               | some u => applySpecifiedBy p (trimQuoteL (valueString u))
               | none => p
             | none => p
           | none => p
  match f.type with
  | .list e _ =>
    if !isScalarType e.namedType && !isBuiltInType e.namedType then
      (none, f)
    else (some (f.name, p), f)
  | .named tn _ =>
    if !isScalarType tn && !isBuiltInType tn then
      (some (f.name ++ str "Id", refReplacementSchema cfg tn f.name),
       { f with name := f.name ++ str "Id" })
    else (some (f.name, p), f)

/-- The field loop of `convertType`: threads the properties map and required
list left to right (map writes overwrite), and returns the post-loop field
list (with the in-place renames applied). -/
def convertTypeFields (cfg : Config) (sch : GqlSchema) :
    List FieldDef → List (Str × OASchema) → List Str →
    List (Str × OASchema) × List Str × List FieldDef
  | [], props, req => (props, req, [])
  | f :: rest, props, req =>
    match processField cfg sch f with
    | (none, f') =>
      let r := convertTypeFields cfg sch rest props req
      (r.1, r.2.1, f' :: r.2.2)
    | (some (k, v), f') =>
      let props' := insertKV props k v
      let req' := if f.type.nonNull then req ++ [k] else req
      let r := convertTypeFields cfg sch rest props' req'
      (r.1, r.2.1, f' :: r.2.2)

/-- `convertType` from `converter.go`: the component schema produced for an
object or input-object declaration (`none` for other kinds, which the
function ignores), plus the type as left in the AST. -/
def convertType (cfg : Config) (sch : GqlSchema) (td : TypeDef) :
    Option OASchema × TypeDef :=
  if td.kind ≠ .object ∧ td.kind ≠ .inputObject then (none, td)
  else
    let r := convertTypeFields cfg sch td.fields [] []
    let s : OASchema :=
      { emptySchema with
        type := str "object",
        properties := r.1,
        required := r.2.1,
        description := if !td.description.isEmpty then td.description else [] }
    (some s, { td with fields := r.2.2 })

/-- `convertEnumType` from `converter.go`. -/
def convertEnumType (td : TypeDef) : OASchema :=
  let s : OASchema := { emptySchema with type := str "string", enum := td.enumValues }
  if !td.description.isEmpty then { s with description := td.description } else s

/-- `convertUnionType` from `converter.go`. -/
def convertUnionType (td : TypeDef) : OASchema :=
  let s : OASchema :=
    { emptySchema with
      oneOf := td.unionTypes.map
        (fun t => { emptySchema with ref := str "#/components/schemas/" ++ t }) }
  if !td.description.isEmpty then { s with description := td.description } else s

/-- `convertInterfaceType` from `converter.go`: the interface's own fields,
converted by the type mapper only (no reference flattening, no required
list, no renames). -/
def convertInterfaceType (sch : GqlSchema) (td : TypeDef) : OASchema :=
  let props := td.fields.foldl
    (fun acc f =>
      let p := convertFieldType sch f.type
      let p := if !f.description.isEmpty then
                 { p with description := addFieldNamePrefix f.name f.description }
               else p
      insertKV acc f.name p)
    []
  let s : OASchema := { emptySchema with type := str "object", properties := props }
  if !td.description.isEmpty then { s with description := td.description } else s

/-- One iteration of the type loop of `Convert` (lines 651-665). -/
def convertTypeStep (cfg : Config) (sch : GqlSchema)
    (acc : List (Str × OASchema) × List TypeDef) (td : TypeDef) :
    List (Str × OASchema) × List TypeDef :=
  if isBuiltInType td.name then (acc.1, acc.2 ++ [td])
  else
    match td.kind with
    | .enum => (insertKV acc.1 td.name (convertEnumType td), acc.2 ++ [td])
    | .union => (insertKV acc.1 td.name (convertUnionType td), acc.2 ++ [td])
    | .interface => (insertKV acc.1 td.name (convertInterfaceType sch td), acc.2 ++ [td])
    | _ =>
      match convertType cfg sch td with
      | (some s, td') => (insertKV acc.1 td.name s, acc.2 ++ [td'])
      | (none, td') => (acc.1, acc.2 ++ [td'])

/-- The type loop of `Convert` (lines 651-665): build the component-schema
map and the post-conversion type list. -/
def convertAllTypes (cfg : Config) (sch : GqlSchema) :
    List (Str × OASchema) × List TypeDef :=
  sch.types.foldl (convertTypeStep cfg sch) ([], [])

/-! ### The REST pattern detector (`detectRESTPatterns`) -/

/-- `RESTPattern` from `converter.go`.  `typeDef?` is the `Type *ast.Definition`
pointer (the looked-up declaration, `none` when the lookup misses). -/
structure RESTPattern where
  resource : Str
  plural : Str
  typeDef? : Option TypeDef
  operations : List (Str × Bool)
  deriving DecidableEq, Repr

/-- `pattern.Operations[op]` (missing keys read as `false`). -/
def patOp (p : RESTPattern) (op : Str) : Bool := lookupFlag p.operations op

/-- The list-detection branch of the query pass (`users: [User!]!`-style
fields). -/
def detectListBranch (cfg : Config) (sch : GqlSchema)
    (pats : List (Str × RESTPattern)) (f : FieldDef) : List (Str × RESTPattern) :=
  match f.type.elem? with
  | some e =>
    if !e.namedType.isEmpty then
      let typeName := e.namedType
      let singular := singularize cfg f.name
      if singular ≠ f.name then
        let p := (lookupKV pats singular).getD
          { resource := singular, plural := f.name, typeDef? := none, operations := [] }
        let p := { p with
          operations := insertKV p.operations (str "list") true,
          typeDef? := lookupType sch typeName }
        insertKV pats singular p
      else pats
    else pats
  | none => pats

/-- The get-by-id branch of the query pass (`user(id: ID!): User`-style
fields). -/
def detectGetBranch (cfg : Config) (sch : GqlSchema)
    (pats : List (Str × RESTPattern)) (f : FieldDef) : List (Str × RESTPattern) :=
  match f.args with
  | [a] =>
    if a.name = str "id" then
      let typeName := f.type.name
      if f.name = singularize cfg typeName || toLowerL f.name = toLowerL typeName then
        let p := (lookupKV pats f.name).getD
          { resource := f.name, plural := pluralize cfg f.name, typeDef? := none,
            operations := [] }
        let p := { p with
          operations := insertKV p.operations (str "get") true,
          typeDef? := lookupType sch typeName }
        insertKV pats f.name p
      else pats
    else pats
  | _ => pats

/-- The query pass of `detectRESTPatterns` (first pass), one field at a time:
the list-detection branch followed by the get-by-id branch. -/
def detectQueryField (cfg : Config) (sch : GqlSchema)
    (pats : List (Str × RESTPattern)) (f : FieldDef) : List (Str × RESTPattern) :=
  detectGetBranch cfg sch (detectListBranch cfg sch pats f) f

/-- One CRUD-prefix check of the mutation pass: sets the flag only when a
pattern for the derived resource already exists. -/
def detectCrudCheck (pats : List (Str × RESTPattern)) (pre : Str) (op : Str)
    (name : Str) : List (Str × RESTPattern) :=
  if !pre.isEmpty && hasPrefixL name pre then
    let resource := uncapitalizeL (trimPrefixL name pre)
    match lookupKV pats resource with
    | some p => insertKV pats resource { p with operations := insertKV p.operations op true }
    | none => pats
  else pats

/-- The mutation pass of `detectRESTPatterns` (second pass), one field at a
time: the three prefix checks run in sequence. -/
def detectMutationField (cfg : Config) (pats : List (Str × RESTPattern))
    (f : FieldDef) : List (Str × RESTPattern) :=
  let pats := detectCrudCheck pats cfg.crudPrefixCreate (str "create") f.name
  let pats := detectCrudCheck pats cfg.crudPrefixUpdate (str "update") f.name
  detectCrudCheck pats cfg.crudPrefixDelete (str "delete") f.name

/-- Go `c.schema.Query` etc.: resolve a root operation type by name. -/
def rootDef (sch : GqlSchema) (n : Option Str) : Option TypeDef :=
  match n with
  | none => none
  | some nm => lookupType sch nm

/-- The first (query) pass of `detectRESTPatterns`. -/
def detectQueryPass (cfg : Config) (sch : GqlSchema) : List (Str × RESTPattern) :=
  match rootDef sch sch.queryName with
  | some q => q.fields.foldl (detectQueryField cfg sch) []
  | none => []

/-- The candidate map of `detectRESTPatterns`: both passes, before the
terminal filter. -/
def detectCandidates (cfg : Config) (sch : GqlSchema) : List (Str × RESTPattern) :=
  match rootDef sch sch.mutationName with
  | some m => m.fields.foldl (detectMutationField cfg) (detectQueryPass cfg sch)
  | none => detectQueryPass cfg sch

/-- `detectRESTPatterns` from `converter.go`: candidates filtered to those
with both the `list` and the `create` flag (the notice printed per kept
pattern is an I/O side effect outside the embedding). -/
def detectRESTPatterns (cfg : Config) (sch : GqlSchema) : List (Str × RESTPattern) :=
  (detectCandidates cfg sch).filter
    (fun rp => patOp rp.2 (str "list") && patOp rp.2 (str "create"))

/-! ### The path builder -/

/-- Go `&PathItem{}`. -/
def emptyPathItem : PathItem := {}

/-- `c.doc.Paths[path] = &PathItem{}` guarded by the nil check. -/
def ensurePath (paths : List (Str × PathItem)) (k : Str) : List (Str × PathItem) :=
  match lookupKV paths k with
  | some _ => paths
  | none => insertKV paths k emptyPathItem

/-- Create-if-absent followed by a field update of the path item. -/
def updatePath (paths : List (Str × PathItem)) (k : Str) (u : PathItem → PathItem) :
    List (Str × PathItem) :=
  insertKV paths k (u ((lookupKV paths k).getD emptyPathItem))

/-- `c.doc.Paths[path].Get = op` (with the nil-guarded creation). -/
def setGet (paths : List (Str × PathItem)) (k : Str) (op : Operation) :
    List (Str × PathItem) :=
  updatePath paths k (fun pi => { pi with get := some op })

/-- `c.doc.Paths[path].Post = op`. -/
def setPost (paths : List (Str × PathItem)) (k : Str) (op : Operation) :
    List (Str × PathItem) :=
  updatePath paths k (fun pi => { pi with post := some op })

/-- `c.doc.Paths[path].Put = op`. -/
def setPut (paths : List (Str × PathItem)) (k : Str) (op : Operation) :
    List (Str × PathItem) :=
  updatePath paths k (fun pi => { pi with put := some op })

/-- `c.doc.Paths[path].Delete = op`. -/
def setDelete (paths : List (Str × PathItem)) (k : Str) (op : Operation) :
    List (Str × PathItem) :=
  updatePath paths k (fun pi => { pi with delete := some op })

/-- The name of a pattern's bound type (`pattern.Type.Name`); a `nil` pointer
would crash Go here, which is unreachable for parsed schemas (every
referenced type is declared) — the embedding reads the empty name. -/
def patTypeName (p : RESTPattern) : Str :=
  match p.typeDef? with
  | some td => td.name
  | none => []

/-- The required string `id` path parameter used by several operations. -/
def idPathParam : Parameter :=
  { name := str "id", loc := str "path", required := true,
    schema := some { emptySchema with type := str "string" } }

/-- A `200` JSON response. -/
def jsonResponse200 (s : OASchema) : List (Str × Response) :=
  [(str "200",
    { description := str "Successful response",
      content := [(str "application/json", { schema := some s })] })]

/-- The list operation a REST pattern emits (`convertQueries`). -/
def patternListOp (pat : RESTPattern) : Operation :=
  { operationId := str "list" ++ capitalizeL pat.plural,
    summary := str "List " ++ pat.plural,
    responses := jsonResponse200
      { emptySchema with
        type := str "array",
        items := some { emptySchema with
          ref := str "#/components/schemas/" ++ patTypeName pat } } }

/-- The get-by-id operation a REST pattern emits (`convertQueries`). -/
def patternGetOp (resource : Str) (pat : RESTPattern) : Operation :=
  { operationId := str "get" ++ capitalizeL resource,
    summary := str "Get " ++ resource ++ str " by ID",
    parameters := [idPathParam],
    responses := jsonResponse200
      { emptySchema with ref := str "#/components/schemas/" ++ patTypeName pat } }

/-- The sub-resource operation emitted for a list-valued field
(`convertQueries`, final loop). -/
def subResourceOp (td : TypeDef) (f : FieldDef) (elemName : Str) : Operation :=
  { operationId := str "get" ++ td.name ++ capitalizeL f.name,
    summary := str "Get " ++ f.name ++ str " by " ++ toLowerL td.name,
    parameters := [idPathParam],
    responses := jsonResponse200
      { emptySchema with
        type := str "array",
        items := some { emptySchema with
          ref := str "#/components/schemas/" ++ elemName } } }

/-- The path key of a sub-resource endpoint. -/
def subResourceKey (cfg : Config) (td : TypeDef) (f : FieldDef) : Str :=
  prefixedPath cfg
    (str "/" ++ pluralize cfg (toLowerL td.name) ++ str "/\x7bid\x7d/" ++ f.name)

/-- `convertQueryField` from `converter.go`. -/
def convertQueryField (sch : GqlSchema) (f : FieldDef) : Operation :=
  let enhanced := addFieldNamePrefix f.name f.description
  let sd := splitDescription enhanced
  let op : Operation :=
    { operationId := f.name, summary := sd.1, description := sd.2,
      responses := jsonResponse200 (convertFieldType sch f.type) }
  let op := if op.summary.isEmpty then
              { op with summary := camelToTitle f.name, description := [] }
            else op
  let op := applyDeprecatedOp f op
  let params := f.args.map (fun a =>
    let p : Parameter :=
      { name := a.name, loc := str "query", required := a.type.nonNull,
        schema := some (convertFieldType sch a.type) }
    let p := if !a.description.isEmpty then { p with description := a.description } else p
    if (a.type.elem?).isSome then { p with style := str "form", explode := true } else p)
  { op with parameters := params }

/-- `convertMutationField` from `converter.go`. -/
def convertMutationField (sch : GqlSchema) (f : FieldDef) (fallbackSummary : Str) :
    Operation :=
  let sd :=
    if !f.description.isEmpty then splitDescription (addFieldNamePrefix f.name f.description)
    else if !fallbackSummary.isEmpty then (fallbackSummary, fallbackSummary)
    else (camelToTitle f.name, [])
  let op : Operation :=
    { operationId := f.name, summary := sd.1, description := sd.2,
      responses := jsonResponse200 (convertFieldType sch f.type) }
  let op := applyDeprecatedOp f op
  if !f.args.isEmpty then
    let bodySchema : OASchema :=
      { emptySchema with
        type := str "object",
        properties := f.args.foldl
          (fun acc a =>
            let p := convertFieldType sch a.type
            let p := if !a.description.isEmpty then { p with description := a.description }
                     else p
            insertKV acc a.name p)
          [],
        required := (f.args.filter (fun a => a.type.nonNull)).map (fun a => a.name) }
    let rb : RequestBody :=
      { required := true,
        content := [(str "application/json", { schema := some bodySchema })] }
    { op with requestBody := some rb }
  else op

/-- `buildSubscriptionPath` from `converter.go`. -/
def buildSubscriptionPath (cfg : Config) (f : FieldDef) : Str :=
  match f.args.find? (fun a => a.type.nonNull) with
  | some a => prefixedPath cfg (str "/" ++ f.name ++ str "/\x7b" ++ a.name ++ str "\x7d")
  | none => prefixedPath cfg (str "/" ++ f.name)

/-- The path parameter built for a subscription argument. -/
def subPathParam (sch : GqlSchema) (a : ArgDef) : Parameter :=
  { name := a.name, loc := str "path", required := true,
    schema := some (convertFieldType sch a.type), description := a.description }

/-- The query parameter built for a subscription argument. -/
def subQueryParam (sch : GqlSchema) (a : ArgDef) : Parameter :=
  let p : Parameter :=
    { name := a.name, loc := str "query", required := a.type.nonNull,
      schema := some (convertFieldType sch a.type), description := a.description }
  if (a.type.elem?).isSome then { p with style := str "form", explode := true } else p

/-- The argument loop of `convertSubscriptionField`: the first non-null
argument (tracked by `used`) becomes the path parameter, the rest query
parameters. -/
def subscriptionParams (sch : GqlSchema) : List ArgDef → Bool → List Parameter
  | [], _ => []
  | a :: rest, used =>
    if a.type.nonNull && !used then
      subPathParam sch a :: subscriptionParams sch rest true
    else
      subQueryParam sch a :: subscriptionParams sch rest used

/-- The SSE framing text of `convertSubscriptionField`. -/
def sseFramingText (fieldName returnTypeName : Str) : Str :=
  str "Server-Sent Events (SSE) stream.\n\nEach event is formatted as:\n  event: " ++
  fieldName ++ str "\n  data: <JSON-encoded " ++ returnTypeName ++
  str " object>\n\nExample:\n  event: " ++ fieldName ++
  str "\n  data: \x7b\"id\":\"123\",...\x7d\n\n" ++
  str "The connection remains open and events are pushed as they occur.\n" ++
  str "Use the EventSource API in browsers or any SSE client library."

/-- `convertSubscriptionField` from `converter.go`. -/
def convertSubscriptionField (sch : GqlSchema) (f : FieldDef) : Operation :=
  let enhanced := addFieldNamePrefix f.name f.description
  let sd := splitDescription enhanced
  let returnTypeName :=
    match f.type.elem? with
    | some e => e.namedType
    | none => f.type.name
  let sse := sseFramingText f.name returnTypeName
  let sse := if !sd.2.isEmpty then sd.2 ++ str "\n\n" ++ sse else sse
  let op : Operation :=
    { operationId := str "subscribe" ++ capitalizeL f.name,
      summary := str "Subscribe: " ++ sd.1,
      description := sse,
      responses := [(str "200",
        { description := str "SSE stream of " ++ returnTypeName ++ str " events",
          content := [(str "text/event-stream",
            { schema := some { emptySchema with
                type := str "string",
                description := str "Server-Sent Events stream. Each event contains a " ++
                  returnTypeName ++ str " object in JSON format." } })] })] }
  let op := if op.summary.isEmpty || op.summary = str "Subscribe: " then
              { op with summary := str "Subscribe to " ++ camelToTitle f.name }
            else op
  let op := applyDeprecatedOp f op
  { op with parameters := subscriptionParams sch f.args false }

/-- One REST pattern's contribution to `convertQueries` (the first loop):
threads `(paths, processedFields)`. -/
def queriesPatternStep (cfg : Config)
    (acc : List (Str × PathItem) × List Str) (entry : Str × RESTPattern) :
    List (Str × PathItem) × List Str :=
  let resource := entry.1
  let pat := entry.2
  let plural := pat.plural
  let acc :=
    if patOp pat (str "list") then
      (setGet acc.1 (prefixedPath cfg (str "/" ++ plural)) (patternListOp pat),
       acc.2 ++ [plural])
    else acc
  if patOp pat (str "get") then
    (setGet acc.1 (prefixedPath cfg (str "/" ++ plural ++ str "/\x7bid\x7d"))
      (patternGetOp resource pat),
     acc.2 ++ [resource])
  else acc

/-- The sub-resource loop of `convertQueries` (the final loop). -/
def subResourcePass (cfg : Config) (sch : GqlSchema)
    (paths : List (Str × PathItem)) : List (Str × PathItem) :=
  sch.types.foldl
    (fun acc td =>
      if isBuiltInType td.name || td.kind ≠ .object then acc
      else
        td.fields.foldl
          (fun acc f =>
            match f.type.elem? with
            | some e =>
              if !e.namedType.isEmpty then
                if isScalarType e.namedType then acc
                else setGet acc (subResourceKey cfg td f) (subResourceOp td f e.namedType)
              else acc
            | none => acc)
          acc)
    paths

/-- `convertQueries` from `converter.go`. -/
def convertQueries (cfg : Config) (sch : GqlSchema) (queryType : TypeDef)
    (restPatterns : List (Str × RESTPattern)) (paths : List (Str × PathItem)) :
    List (Str × PathItem) :=
  let acc := restPatterns.foldl (queriesPatternStep cfg) (paths, [])
  let paths := acc.1
  let processedFields := acc.2
  let paths := queryType.fields.foldl
    (fun acc f =>
      if processedFields.contains f.name then acc
      else if hasPrefixL f.name (str "__") then acc
      else setGet acc (prefixedPath cfg (str "/" ++ f.name)) (convertQueryField sch f))
    paths
  subResourcePass cfg sch paths

/-- The create stage of `convertMutations`' pattern loop. -/
def mutationsCreateStage (cfg : Config) (sch : GqlSchema) (mutationType : TypeDef)
    (acc : List (Str × PathItem) × List Str) (entry : Str × RESTPattern) :
    List (Str × PathItem) × List Str :=
  if patOp entry.2 (str "create") then
    let path := prefixedPath cfg (str "/" ++ entry.2.plural)
    let paths := ensurePath acc.1 path
    match mutationType.fields.find?
        (fun f => f.name = cfg.crudPrefixCreate ++ capitalizeL entry.1) with
    | some cf =>
      (setPost paths path (convertMutationField sch cf (str "Create " ++ entry.1)),
       acc.2 ++ [cf.name])
    | none => (paths, acc.2)
  else acc

/-- The update stage of `convertMutations`' pattern loop (injects a leading
`id` path parameter). -/
def mutationsUpdateStage (cfg : Config) (sch : GqlSchema) (mutationType : TypeDef)
    (acc : List (Str × PathItem) × List Str) (entry : Str × RESTPattern) :
    List (Str × PathItem) × List Str :=
  if patOp entry.2 (str "update") then
    let path := prefixedPath cfg (str "/" ++ entry.2.plural ++ str "/\x7bid\x7d")
    let paths := ensurePath acc.1 path
    match mutationType.fields.find?
        (fun f => f.name = cfg.crudPrefixUpdate ++ capitalizeL entry.1) with
    | some uf =>
      let op := convertMutationField sch uf (str "Update " ++ entry.1)
      (setPut paths path { op with parameters := idPathParam :: op.parameters },
       acc.2 ++ [uf.name])
    | none => (paths, acc.2)
  else acc

/-- The delete stage of `convertMutations`' pattern loop (an `id`-only
mutation trades its request body for a path parameter). -/
def mutationsDeleteStage (cfg : Config) (sch : GqlSchema) (mutationType : TypeDef)
    (acc : List (Str × PathItem) × List Str) (entry : Str × RESTPattern) :
    List (Str × PathItem) × List Str :=
  if patOp entry.2 (str "delete") then
    let path := prefixedPath cfg (str "/" ++ entry.2.plural ++ str "/\x7bid\x7d")
    let paths := ensurePath acc.1 path
    match mutationType.fields.find?
        (fun f => f.name = cfg.crudPrefixDelete ++ capitalizeL entry.1) with
    | some df =>
      let op := convertMutationField sch df (str "Delete " ++ entry.1)
      let op :=
        match df.args with
        | [a] =>
          if a.name = str "id" then
            { op with parameters := [idPathParam], requestBody := none }
          else op
        | _ => op
      (setDelete paths path op, acc.2 ++ [df.name])
    | none => (paths, acc.2)
  else acc

/-- One REST pattern's contribution to `convertMutations` (the first loop):
the three CRUD stages in sequence. -/
def mutationsPatternStep (cfg : Config) (sch : GqlSchema) (mutationType : TypeDef)
    (acc : List (Str × PathItem) × List Str) (entry : Str × RESTPattern) :
    List (Str × PathItem) × List Str :=
  mutationsDeleteStage cfg sch mutationType
    (mutationsUpdateStage cfg sch mutationType
      (mutationsCreateStage cfg sch mutationType acc entry) entry) entry

/-- `convertMutations` from `converter.go`.  Note: unlike `convertQueries`
and `convertSubscriptions`, the remaining-fields loop has no introspection
(`__`) skip in the source. -/
def convertMutations (cfg : Config) (sch : GqlSchema) (mutationType : TypeDef)
    (restPatterns : List (Str × RESTPattern)) (paths : List (Str × PathItem)) :
    List (Str × PathItem) :=
  let acc := restPatterns.foldl (mutationsPatternStep cfg sch mutationType) (paths, [])
  let paths := acc.1
  let processedFields := acc.2
  mutationType.fields.foldl
    (fun acc f =>
      if processedFields.contains f.name then acc
      else setPost acc (prefixedPath cfg (str "/" ++ f.name)) (convertMutationField sch f []))
    paths

/-- `convertSubscriptions` from `converter.go`. -/
def convertSubscriptions (cfg : Config) (sch : GqlSchema) (subscriptionType : TypeDef)
    (paths : List (Str × PathItem)) : List (Str × PathItem) :=
  subscriptionType.fields.foldl
    (fun acc f =>
      if hasPrefixL f.name (str "__") then acc
      else setGet acc (buildSubscriptionPath cfg f) (convertSubscriptionField sch f))
    paths

/-! ### Schema description extraction and the top-level `Convert` -/

/-- The declaration-start keywords that stop the description scan. -/
def declStarts : List Str :=
  [str "type ", str "interface ", str "scalar ", str "enum ", str "union ",
   str "input ", str "directive "]

/-- The line loop of `extractSchemaDescription`:
threads the collected lines, the in-block flag, and stops (returns) at
declaration starts or at an empty line after collected content. -/
def extractDescLines : List Str → List Str → Bool → List Str
  | [], desc, _ => desc
  | line :: rest, desc, inBlock =>
    let trimmed := trimSpaceL line
    if hasPrefixL trimmed (str "\"\"\"") then
      if inBlock then extractDescLines rest desc false
      else if countSubstrL trimmed (str "\"\"\"") ≥ 2 then
        let content := trimSuffixL (trimPrefixL trimmed (str "\"\"\"")) (str "\"\"\"")
        extractDescLines rest (desc ++ [trimSpaceL content]) false
      else extractDescLines rest desc true
    else if inBlock then extractDescLines rest (desc ++ [trimmed]) true
    else if declStarts.any (fun d => hasPrefixL trimmed d) then desc
    else if trimmed.isEmpty && !desc.isEmpty then desc
    else extractDescLines rest desc inBlock

/-- `extractSchemaDescription` from `converter.go`. -/
def extractSchemaDescription (schemaSource : Str) : Str :=
  trimSpaceL (joinL (extractDescLines (splitOnCharL '\n' schemaSource) [] false) (str "\n"))

/-- The title/description computation at the head of `Convert`. -/
def titleAndDescription (cfg : Config) (schemaDesc : Str) : Str × Str :=
  let base :=
    if !schemaDesc.isEmpty then
      let lines := splitOnCharL '\n' schemaDesc
      let firstLine := trimSpaceL (lines.headD [])
      if !firstLine.isEmpty && cfg.title = str "Converted from GraphQL" then
        (firstLine,
         if lines.length > 1 then trimSpaceL (joinL lines.tail (str "\n")) else [])
      else (cfg.title, schemaDesc)
    else (cfg.title, schemaDesc)
  let footer := str "Converted from GraphQL (" ++ cfg.version ++ str ")"
  let description :=
    if !base.2.isEmpty then base.2 ++ str "\n\n---\n\n" ++ footer else footer
  (base.1, description)

/-- The AST as `Convert` leaves it: the type-conversion pass renames
object-reference fields in place; nothing else writes the AST. -/
def convertAST (cfg : Config) (sch : GqlSchema) : GqlSchema :=
  { sch with types := (convertAllTypes cfg sch).2 }

/-- `Convert` from `converter.go`, after a successful parse: assemble the
document and run the four passes.  `schemaSource` is the raw SDL text
(read again for the top-of-file description). -/
def convert (cfg : Config) (schemaSource : Str) (sch : GqlSchema) : OpenAPIDocument :=
  let td := titleAndDescription cfg (extractSchemaDescription schemaSource)
  let restPatterns :=
    if cfg.detectRESTPatternsCfg then detectRESTPatterns cfg sch else []
  let r := convertAllTypes cfg sch
  let sch' : GqlSchema := { sch with types := r.2 }
  let paths : List (Str × PathItem) := []
  let paths :=
    match rootDef sch' sch'.queryName with
    | some q => convertQueries cfg sch' q restPatterns paths
    | none => paths
  let paths :=
    match rootDef sch' sch'.mutationName with
    | some m => convertMutations cfg sch' m restPatterns paths
    | none => paths
  let paths :=
    match rootDef sch' sch'.subscriptionName with
    | some s => convertSubscriptions cfg sch' s paths
    | none => paths
  { openapi := str "3.0.0",
    info := { title := td.1, version := cfg.version, description := td.2 },
    servers := if !cfg.baseURL.isEmpty then [{ url := cfg.baseURL }] else [],
    paths := paths,
    components := { schemas := r.1 } }

/-- `Convert` including its parse step.  Parsing is done by the external
collaborator (`gqlparser.LoadSchema`); its outcome is the `parsed` argument.
A parse error is wrapped (`fmt.Errorf("failed to parse GraphQL schema: %w")`)
and returned with no document. -/
def convertE (cfg : Config) (schemaSource : Str)
    (parsed : Except Str GqlSchema) : Except Str OpenAPIDocument :=
  match parsed with
  | .error e => .error (str "failed to parse GraphQL schema: " ++ e)
  | .ok sch => .ok (convert cfg schemaSource sch)

/-! ### Association-list lemmas -/

section KVLemmas

variable {β : Type}

@[simp] theorem lookupKV_nil (k : Str) : lookupKV ([] : List (Str × β)) k = none := rfl

theorem lookupKV_cons (k' : Str) (v' : β) (rest : List (Str × β)) (k : Str) :
    lookupKV ((k', v') :: rest) k = if k' = k then some v' else lookupKV rest k := rfl

@[simp] theorem lookupKV_insertKV_self (m : List (Str × β)) (k : Str) (v : β) :
    lookupKV (insertKV m k v) k = some v := by
  induction m with
  | nil => simp [insertKV, lookupKV]
  | cons hd tl ih =>
    obtain ⟨k', v'⟩ := hd
    by_cases h : k' = k
    · simp [insertKV, h, lookupKV]
    · simp [insertKV, h, lookupKV, ih]

theorem lookupKV_insertKV_ne (m : List (Str × β)) (k k' : Str) (v : β) (h : k ≠ k') :
    lookupKV (insertKV m k v) k' = lookupKV m k' := by
  induction m with
  | nil => simp [insertKV, lookupKV, h]
  | cons hd tl ih =>
    obtain ⟨k₀, v₀⟩ := hd
    by_cases h0 : k₀ = k
    · subst h0
      simp [insertKV, lookupKV, h]
    · simp only [insertKV, if_neg h0, lookupKV]
      by_cases h1 : k₀ = k'
      · simp [h1]
      · simp [h1, ih]

theorem mem_insertKV {m : List (Str × β)} {k : Str} {v : β} {x : Str × β}
    (h : x ∈ insertKV m k v) : x = (k, v) ∨ x ∈ m := by
  induction m with
  | nil => simpa [insertKV] using h
  | cons hd tl ih =>
    obtain ⟨k₀, v₀⟩ := hd
    by_cases h0 : k₀ = k
    · simp only [insertKV, if_pos h0] at h
      rcases List.mem_cons.mp h with h | h
      · exact Or.inl h
      · exact Or.inr (List.mem_cons_of_mem _ h)
    · simp only [insertKV, if_neg h0] at h
      rcases List.mem_cons.mp h with h | h
      · exact Or.inr (h ▸ List.mem_cons_self _ _)
      · rcases ih h with h | h
        · exact Or.inl h
        · exact Or.inr (List.mem_cons_of_mem _ h)

/-- The keys of an association list. -/
def kvKeys (m : List (Str × β)) : List Str := m.map Prod.fst

@[simp] theorem kvKeys_nil : kvKeys ([] : List (Str × β)) = [] := rfl

@[simp] theorem kvKeys_cons (k : Str) (v : β) (tl : List (Str × β)) :
    kvKeys ((k, v) :: tl) = k :: kvKeys tl := rfl

theorem lookupKV_eq_none_of_not_mem_keys {m : List (Str × β)} {k : Str}
    (h : k ∉ kvKeys m) : lookupKV m k = none := by
  induction m with
  | nil => rfl
  | cons hd tl ih =>
    obtain ⟨k₀, v₀⟩ := hd
    have h1 : k₀ ≠ k := fun he => h (by simp [he])
    have h2 : k ∉ kvKeys tl := fun hm => h (by simp [hm])
    simp [lookupKV, h1, ih h2]

theorem keys_insertKV (m : List (Str × β)) (k : Str) (v : β) :
    kvKeys (insertKV m k v) = if k ∈ kvKeys m then kvKeys m else kvKeys m ++ [k] := by
  induction m with
  | nil => simp [insertKV]
  | cons hd tl ih =>
    obtain ⟨k₀, v₀⟩ := hd
    by_cases h0 : k₀ = k
    · subst h0
      simp [insertKV]
    · by_cases h1 : k ∈ kvKeys tl
      · rw [if_pos (by simp [h1])]
        simp only [insertKV, if_neg h0, kvKeys_cons, ih, if_pos h1]
      · rw [if_neg (by
          intro hm
          rcases List.mem_cons.mp (by simpa using hm) with he | hm'
          · exact h0 he.symm
          · exact h1 hm')]
        simp only [insertKV, if_neg h0, kvKeys_cons, ih, if_neg h1, List.cons_append]

theorem keysNodup_insertKV {m : List (Str × β)} (k : Str) (v : β)
    (h : (kvKeys m).Nodup) : (kvKeys (insertKV m k v)).Nodup := by
  rw [keys_insertKV]
  by_cases h1 : k ∈ kvKeys m
  · simpa [h1]
  · simpa [h1, List.nodup_append] using h

theorem keys_filter_subset (m : List (Str × β)) (P : Str × β → Bool) :
    kvKeys (m.filter P) ⊆ kvKeys m := by
  intro a ha
  simp only [kvKeys, List.mem_map] at ha ⊢
  obtain ⟨x, hx, hxa⟩ := ha
  exact ⟨x, List.mem_of_mem_filter hx, hxa⟩

theorem lookupKV_filter {m : List (Str × β)} (P : Str × β → Bool) (k : Str)
    (h : (kvKeys m).Nodup) :
    lookupKV (m.filter P) k =
      (lookupKV m k).bind (fun v => if P (k, v) then some v else none) := by
  induction m with
  | nil => rfl
  | cons hd tl ih =>
    obtain ⟨k₀, v₀⟩ := hd
    rw [kvKeys_cons, List.nodup_cons] at h
    by_cases h0 : k₀ = k
    · subst h0
      by_cases hP : P (k₀, v₀)
      · simp [List.filter_cons, hP, lookupKV_cons]
      · rw [List.filter_cons, if_neg hP,
          lookupKV_eq_none_of_not_mem_keys (fun hmem => h.1 (keys_filter_subset tl P hmem)),
          lookupKV_cons, if_pos rfl]
        simp [hP]
    · by_cases hP : P (k₀, v₀)
      · simp [List.filter_cons, hP, lookupKV_cons, h0, ih h.2]
      · simp [List.filter_cons, hP, lookupKV_cons, h0, ih h.2]

end KVLemmas

/-! ### Path-map lemmas -/

/-- The `Get` operation registered at a path (if any). -/
def lookupGet (paths : List (Str × PathItem)) (k : Str) : Option Operation :=
  match lookupKV paths k with
  | some pi => pi.get
  | none => none

/-- The `Post` operation registered at a path (if any). -/
def lookupPost (paths : List (Str × PathItem)) (k : Str) : Option Operation :=
  match lookupKV paths k with
  | some pi => pi.post
  | none => none

theorem lookupKV_updatePath_self (p : List (Str × PathItem)) (k : Str)
    (u : PathItem → PathItem) :
    lookupKV (updatePath p k u) k = some (u ((lookupKV p k).getD emptyPathItem)) := by
  simp [updatePath]

theorem lookupKV_updatePath_ne (p : List (Str × PathItem)) (k k' : Str)
    (u : PathItem → PathItem) (h : k ≠ k') :
    lookupKV (updatePath p k u) k' = lookupKV p k' := by
  simp [updatePath, lookupKV_insertKV_ne _ _ _ _ h]

@[simp] theorem lookupGet_setGet_self (p : List (Str × PathItem)) (k : Str) (op : Operation) :
    lookupGet (setGet p k op) k = some op := by
  simp [lookupGet, setGet, lookupKV_updatePath_self]

theorem lookupGet_setGet_ne (p : List (Str × PathItem)) (k k' : Str) (op : Operation)
    (h : k ≠ k') : lookupGet (setGet p k op) k' = lookupGet p k' := by
  simp [lookupGet, setGet, lookupKV_updatePath_ne _ _ _ _ h]

theorem lookupGet_setPost (p : List (Str × PathItem)) (k k' : Str) (op : Operation) :
    lookupGet (setPost p k op) k' = lookupGet p k' := by
  by_cases h : k = k'
  · subst h
    simp [lookupGet, setPost, lookupKV_updatePath_self]
    cases hk : lookupKV p k <;> simp [hk, emptyPathItem]
  · simp [lookupGet, setPost, lookupKV_updatePath_ne _ _ _ _ h]

theorem lookupGet_setPut (p : List (Str × PathItem)) (k k' : Str) (op : Operation) :
    lookupGet (setPut p k op) k' = lookupGet p k' := by
  by_cases h : k = k'
  · subst h
    simp [lookupGet, setPut, lookupKV_updatePath_self]
    cases hk : lookupKV p k <;> simp [hk, emptyPathItem]
  · simp [lookupGet, setPut, lookupKV_updatePath_ne _ _ _ _ h]

theorem lookupGet_setDelete (p : List (Str × PathItem)) (k k' : Str) (op : Operation) :
    lookupGet (setDelete p k op) k' = lookupGet p k' := by
  by_cases h : k = k'
  · subst h
    simp [lookupGet, setDelete, lookupKV_updatePath_self]
    cases hk : lookupKV p k <;> simp [hk, emptyPathItem]
  · simp [lookupGet, setDelete, lookupKV_updatePath_ne _ _ _ _ h]

theorem lookupGet_ensurePath_of_some (p : List (Str × PathItem)) (k k' : Str)
    (op : Operation) (h : lookupGet p k' = some op) :
    lookupGet (ensurePath p k) k' = some op := by
  unfold ensurePath
  cases hk : lookupKV p k with
  | some pi => simpa [hk] using h
  | none =>
    by_cases he : k = k'
    · subst he
      simp [lookupGet, hk] at h
    · simpa [lookupGet, lookupKV_insertKV_ne _ _ _ _ he] using h

/-! ### Concrete example schemas used by witnesses and counterexamples -/

/-- A field with no description, arguments, or directives. -/
def plainField (n : Str) (t : GqlType) : FieldDef :=
  { name := n, description := [], type := t, args := [], directives := [] }

/-- An argument with no description. -/
def plainArg (n : Str) (t : GqlType) : ArgDef :=
  { name := n, description := [], type := t }

/-- An object type with plain fields. -/
def objectType (n : Str) (fs : List FieldDef) : TypeDef :=
  { name := n, kind := .object, description := [], fields := fs,
    enumValues := [], unionTypes := [], directives := [] }

/-- `type User { id: ID!  name: String! }`. -/
def exUser : TypeDef :=
  objectType (str "User")
    [plainField (str "id") (.named (str "ID") true),
     plainField (str "name") (.named (str "String") true)]

/-- `type Post { author: User! }`. -/
def exPost : TypeDef :=
  objectType (str "Post") [plainField (str "author") (.named (str "User") true)]

/-- A schema declaring only `User` and `Post` (no root operation types). -/
def exPostSchema : GqlSchema :=
  { types := [exUser, exPost], queryName := none, mutationName := none,
    subscriptionName := none }

/-- `type Mutation { __foo: String }`: a mutation root field carrying the
introspection prefix. -/
def exIntroMutation : TypeDef :=
  objectType (str "Mutation") [plainField (str "__foo") (.named (str "String") false)]

/-- A schema whose only root is the mutation type with an `__`-prefixed field. -/
def exIntroSchema : GqlSchema :=
  { types := [exIntroMutation], queryName := none,
    mutationName := some (str "Mutation"), subscriptionName := none }

/-- `type User { posts: [Post!]! }` for the sub-resource claims. -/
def exListUser : TypeDef :=
  objectType (str "User")
    [plainField (str "posts") (.list (.named (str "Post") true) true)]

/-- `type Post { id: ID! }`. -/
def exIdPost : TypeDef :=
  objectType (str "Post") [plainField (str "id") (.named (str "ID") true)]

/-- A schema with a list-valued field but no `Query` root type. -/
def exNoQuerySchema : GqlSchema :=
  { types := [exListUser, exIdPost], queryName := none, mutationName := none,
    subscriptionName := none }

/-- The empty schema (no declarations). -/
def exEmptySchema : GqlSchema :=
  { types := [], queryName := none, mutationName := none, subscriptionName := none }

/-- The `posts: [Post!]!` field of `exListUser`. -/
def exPostsField : FieldDef :=
  plainField (str "posts") (.list (.named (str "Post") true) true)

/-- `type Query { ping: String }`: a minimal query root type. -/
def exPingQuery : TypeDef :=
  objectType (str "Query") [plainField (str "ping") (.named (str "String") false)]

/-- The sub-resource schema of `exNoQuerySchema` extended with a `Query`
root type, so the query conversion (and with it the sub-resource pass)
runs. -/
def exSubResSchema : GqlSchema :=
  { types := [exPingQuery, exListUser, exIdPost], queryName := some (str "Query"),
    mutationName := none, subscriptionName := none }

/-! ### Claim C7 -/

/-- Claim C7 (code bug evaluation): for the schema
`type Mutation { __foo: String }`, the conversion emits `POST /__foo` even
though the field name starts with the introspection prefix — the
remaining-mutations loop of `convertMutations` has no `__` skip, unlike the
corresponding loops of `convertQueries` and `convertSubscriptions`. -/
theorem c7_mutation_introspection_not_skipped :
    hasPrefixL (str "__foo") (str "__") = true ∧
    ((lookupKV (convert defaultConfig [] exIntroSchema).paths (str "/__foo")).bind
        (fun pi => pi.post)).map (fun op => op.operationId) = some (str "__foo") := by
  constructor
  · decide
  · rfl

/-! ### Claim C2: counterexample -/

/-- The reference-flattening description as the claim/spec words it
(`"Reference to <X>.id — use GET /<plural>/{<f>Id}"`, with an em dash). -/
def claimedRefDescription (cfg : Config) (tn origName : Str) : Str :=
  str "Reference to " ++ tn ++ str ".id — use GET /" ++
    pluralize cfg (toLowerL tn) ++ str "/\x7b" ++ origName ++ str "Id\x7d"

/-- Claim C2 (counterexample): for `type Post { author: User! }` the emitted
property description is `"Reference to User.id - use GET /users/{authorId}"`
(an ASCII hyphen), which differs from the description string the claim
specifies (an em dash). -/
theorem c2_counterexample :
    ((convertType defaultConfig exPostSchema exPost).1.bind
        (fun s => lookupKV s.properties (str "authorId"))).map
      (fun p => p.description) =
      some (str "Reference to User.id - use GET /users/\x7bauthorId\x7d") ∧
    str "Reference to User.id - use GET /users/\x7bauthorId\x7d" ≠
      claimedRefDescription defaultConfig (str "User") (str "author") := by
  constructor
  · rfl
  · decide

/-! ### Claim C3: counterexample -/

/-- Claim C3 (counterexample): `type User { posts: [Post!]! }` in a schema
with no `Query` root type.  The field is indeed dropped from `User`'s
component schema, but no sub-resource path `GET /users/{id}/posts` is
emitted — the sub-resource pass lives inside `convertQueries`, which only
runs when the schema has a query root — so the claimed conjunction fails. -/
theorem c3_counterexample :
    exListUser ∈ exNoQuerySchema.types ∧ exListUser.kind = TypeKind.object ∧
    plainField (str "posts") (.list (.named (str "Post") true) true) ∈ exListUser.fields ∧
    ((lookupKV (convert defaultConfig [] exNoQuerySchema).components.schemas
        (str "User")).map (fun s => (kvKeys s.properties, s.required))) =
      some ([], []) ∧
    (convert defaultConfig [] exNoQuerySchema).paths.length = 0 := by
  refine ⟨by decide, by decide, by decide, by rfl, by rfl⟩

/-! ### Claim C4: counterexample -/

/-- Claim C4 (counterexample): `__foo` is not one of the five scalar names,
not a root-operation-type name, and not declared, so the claim's final
clause says it maps to `{type: string}`; the code's built-in check also
matches the introspection prefix and maps it to `{type: object}`. -/
theorem c4_counterexample :
    lookupType exEmptySchema (str "__foo") = none ∧
    isScalarType (str "__foo") = false ∧
    (str "__foo" ≠ str "Query" ∧ str "__foo" ≠ str "Mutation" ∧
      str "__foo" ≠ str "Subscription") ∧
    (convertFieldType exEmptySchema (.named (str "__foo") false)).type = str "object" ∧
    str "object" ≠ str "string" := by
  refine ⟨by rfl, by decide, ⟨by decide, by decide, by decide⟩, by rfl, by decide⟩

/-! ### Claim C8: counterexample -/

/-- Claim C8 (counterexample): converting the `User`/`Post` schema changes
the parsed AST — `convertType` renames the object-reference field
`Post.author` to `authorId` in place (`field.Name = field.Name + "Id"`), so
the schema is not identical before and after. -/
theorem c8_counterexample :
    convertAST defaultConfig exPostSchema ≠ exPostSchema ∧
    ((lookupType (convertAST defaultConfig exPostSchema) (str "Post")).map
      (fun td => td.fields.map (fun f => f.name))) = some [str "authorId"] ∧
    ((lookupType exPostSchema (str "Post")).map
      (fun td => td.fields.map (fun f => f.name))) = some [str "author"] := by
  refine ⟨by decide, by rfl, by rfl⟩

/-! ### Claim C9: counterexample -/

/-- Claim C9 (counterexample): `"movie"` matches only the default-suffix
pluralization rule (no custom entry, no `s/x/z/ch/sh` suffix, no
`y`-after-consonant suffix), yet
`singularize (pluralize "movie") = singularize "movies" = "movy" ≠ "movie"`:
the `"ies"` reversal fires on the appended default suffix. -/
theorem c9_counterexample :
    defaultConfig.customPlurals = [] ∧
    (∀ suf ∈ defaultConfig.pluralizeSuffixesES, hasSuffixL (str "movie") suf = false) ∧
    iesGuard defaultConfig (str "movie") = false ∧
    singularize defaultConfig (pluralize defaultConfig (str "movie")) = str "movy" ∧
    str "movy" ≠ str "movie" := by
  refine ⟨by rfl, by decide, by decide, by rfl, by decide⟩

/-! ### Claim C1: detector invariants -/

/-- A generic left-fold invariant. -/
theorem foldl_inv {α β : Type} (P : β → Prop) (step : β → α → β) (l : List α)
    (acc : β) (h : P acc) (hs : ∀ b a, P b → P (step b a)) :
    P (List.foldl step acc l) := by
  induction l generalizing acc with
  | nil => exact h
  | cons hd tl ih => exact ih (step acc hd) (hs acc hd h)

theorem keysNodup_detectListBranch (cfg : Config) (sch : GqlSchema)
    (pats : List (Str × RESTPattern)) (f : FieldDef)
    (h : (kvKeys pats).Nodup) :
    (kvKeys (detectListBranch cfg sch pats f)).Nodup := by
  unfold detectListBranch
  split
  · dsimp only
    split
    · split
      · exact keysNodup_insertKV _ _ h
      · exact h
    · exact h
  · exact h

theorem keysNodup_detectGetBranch (cfg : Config) (sch : GqlSchema)
    (pats : List (Str × RESTPattern)) (f : FieldDef)
    (h : (kvKeys pats).Nodup) :
    (kvKeys (detectGetBranch cfg sch pats f)).Nodup := by
  unfold detectGetBranch
  split
  · dsimp only
    split
    · split
      · exact keysNodup_insertKV _ _ h
      · exact h
    · exact h
  · exact h

theorem keysNodup_detectCrudCheck (pats : List (Str × RESTPattern))
    (pre op name : Str) (h : (kvKeys pats).Nodup) :
    (kvKeys (detectCrudCheck pats pre op name)).Nodup := by
  unfold detectCrudCheck
  split
  · dsimp only
    split
    · exact keysNodup_insertKV _ _ h
    · exact h
  · exact h

theorem keysNodup_detectCandidates (cfg : Config) (sch : GqlSchema) :
    (kvKeys (detectCandidates cfg sch)).Nodup := by
  have h1 : (kvKeys (detectQueryPass cfg sch)).Nodup := by
    unfold detectQueryPass
    split
    · exact foldl_inv (fun pats => (kvKeys pats).Nodup) _ _ _ List.nodup_nil
        (fun b a hb => keysNodup_detectGetBranch cfg sch _ a
          (keysNodup_detectListBranch cfg sch b a hb))
    · exact List.nodup_nil
  unfold detectCandidates
  split
  · exact foldl_inv (fun pats => (kvKeys pats).Nodup) _ _ _ h1
      (fun b a hb =>
        keysNodup_detectCrudCheck _ _ _ _
          (keysNodup_detectCrudCheck _ _ _ _ (keysNodup_detectCrudCheck _ _ _ _ hb)))
  · exact h1

theorem lookupKV_detectCrudCheck_none (pats : List (Str × RESTPattern))
    (pre op name resource : Str) (h : lookupKV pats resource = none) :
    lookupKV (detectCrudCheck pats pre op name) resource = none := by
  unfold detectCrudCheck
  split
  · rename_i hpre
    cases hp : lookupKV pats (uncapitalizeL (trimPrefixL name pre)) with
    | some p =>
      simp only [hp]
      by_cases he : uncapitalizeL (trimPrefixL name pre) = resource
      · rw [he] at hp
        rw [hp] at h
        exact absurd h (by simp)
      · rw [lookupKV_insertKV_ne _ _ _ _ he]
        exact h
    | none => simpa [hp] using h
  · exact h

theorem lookupKV_detectMutationField_none (cfg : Config)
    (pats : List (Str × RESTPattern)) (f : FieldDef) (resource : Str)
    (h : lookupKV pats resource = none) :
    lookupKV (detectMutationField cfg pats f) resource = none := by
  unfold detectMutationField
  exact lookupKV_detectCrudCheck_none _ _ _ _ _
    (lookupKV_detectCrudCheck_none _ _ _ _ _
      (lookupKV_detectCrudCheck_none _ _ _ _ _ h))

/-- Claim C1: a candidate resource survives the terminal filter iff both its
`list` and its `create` flag are set; and the mutation pass never creates a
candidate — a resource with no candidate after the query pass has none after
the mutation pass either. -/
theorem c1_pattern_filter (cfg : Config) (sch : GqlSchema) (resource : Str) :
    ((lookupKV (detectRESTPatterns cfg sch) resource).isSome ↔
      (∃ p, lookupKV (detectCandidates cfg sch) resource = some p ∧
        patOp p (str "list") = true ∧ patOp p (str "create") = true)) ∧
    (lookupKV (detectQueryPass cfg sch) resource = none →
      lookupKV (detectCandidates cfg sch) resource = none) := by
  constructor
  · rw [show detectRESTPatterns cfg sch =
        (detectCandidates cfg sch).filter
          (fun rp => patOp rp.2 (str "list") && patOp rp.2 (str "create")) from rfl]
    rw [lookupKV_filter _ _ (keysNodup_detectCandidates cfg sch)]
    cases hc : lookupKV (detectCandidates cfg sch) resource with
    | none => simp
    | some p =>
      by_cases hl : patOp p (str "list") = true
      · by_cases hcr : patOp p (str "create") = true
        · simp [hl, hcr]
        · simp [hl, hcr]
      · simp [hl]
  · intro h
    unfold detectCandidates
    split
    · exact foldl_inv (fun pats => lookupKV pats resource = none)
        _ _ _ h (fun b a hb => lookupKV_detectMutationField_none cfg b a resource hb)
    · exact h

/-- `type Query { users: [User!]!  user(id: ID!): User }`,
`type Mutation { createUser(name: String!): User! }` plus `User` — the CRUD
scenario from the specification. -/
def exCrudSchema : GqlSchema :=
  { types :=
      [objectType (str "Query")
        [plainField (str "users") (.list (.named (str "User") true) true),
         { name := str "user", description := [], type := .named (str "User") false,
           args := [plainArg (str "id") (.named (str "ID") true)], directives := [] }],
       objectType (str "Mutation")
        [{ name := str "createUser", description := [],
           type := .named (str "User") true,
           args := [plainArg (str "name") (.named (str "String") true)],
           directives := [] }],
       exUser],
    queryName := some (str "Query"), mutationName := some (str "Mutation"),
    subscriptionName := none }

/-- Witness for claim C1: in the CRUD scenario there is no candidate named
`comment` after the query pass, so the detector's final set has none. -/
theorem c1_pattern_filter_witness :
    lookupKV (detectCandidates defaultConfig exCrudSchema) (str "comment") = none :=
  (c1_pattern_filter defaultConfig exCrudSchema (str "comment")).2 (by rfl)

/-! ### Claim C4: amended theorem -/

/-- Claim C4 (amended): the type mapper is total by construction, and —
reading the built-in (root-operation or introspection-prefixed) case with
precedence over the declared-type case — maps each class of type reference
as the claim lists: the five scalar names to their fixed pairs, lists to
arrays of the recursive mapping, built-in names to `{type: object}`,
declared non-scalar types to component references, and undeclared names to
`{type: string}`. -/
theorem c4_mapper_clauses (sch : GqlSchema) (nn : Bool) (t : GqlType) (n : Str)
    (td : TypeDef) :
    (convertFieldType sch (.named (str "Int") nn) =
      { emptySchema with type := str "integer", format := str "int32" }) ∧
    (convertFieldType sch (.named (str "Float") nn) =
      { emptySchema with type := str "number", format := str "double" }) ∧
    (convertFieldType sch (.named (str "String") nn) =
      { emptySchema with type := str "string" }) ∧
    (convertFieldType sch (.named (str "Boolean") nn) =
      { emptySchema with type := str "boolean" }) ∧
    (convertFieldType sch (.named (str "ID") nn) =
      { emptySchema with type := str "string" }) ∧
    (convertFieldType sch (.list t nn) =
      { emptySchema with type := str "array", items := some (convertFieldType sch t) }) ∧
    (isBuiltInType n = true →
      convertFieldType sch (.named n nn) = { emptySchema with type := str "object" }) ∧
    (isScalarType n = false → isBuiltInType n = false → lookupType sch n = some td →
      td.kind ≠ TypeKind.scalar →
      convertFieldType sch (.named n nn) =
        { emptySchema with ref := str "#/components/schemas/" ++ n }) ∧
    (isScalarType n = false → isBuiltInType n = false → lookupType sch n = none →
      convertFieldType sch (.named n nn) = { emptySchema with type := str "string" }) := by
  refine ⟨rfl, rfl, rfl, rfl, rfl, rfl, ?_, ?_, ?_⟩
  · intro hb
    have h1 : n ≠ str "Int" := fun he => by rw [he] at hb; exact absurd hb (by decide)
    have h2 : n ≠ str "Float" := fun he => by rw [he] at hb; exact absurd hb (by decide)
    have h3 : n ≠ str "String" := fun he => by rw [he] at hb; exact absurd hb (by decide)
    have h4 : n ≠ str "Boolean" := fun he => by rw [he] at hb; exact absurd hb (by decide)
    have h5 : n ≠ str "ID" := fun he => by rw [he] at hb; exact absurd hb (by decide)
    simp [convertFieldType, h1, h2, h3, h4, h5, hb]
  · intro hs hb hl hk
    have h1 : n ≠ str "Int" := fun he => by rw [he] at hs; exact absurd hs (by decide)
    have h2 : n ≠ str "Float" := fun he => by rw [he] at hs; exact absurd hs (by decide)
    have h3 : n ≠ str "String" := fun he => by rw [he] at hs; exact absurd hs (by decide)
    have h4 : n ≠ str "Boolean" := fun he => by rw [he] at hs; exact absurd hs (by decide)
    have h5 : n ≠ str "ID" := fun he => by rw [he] at hs; exact absurd hs (by decide)
    have hk' : td.kind = TypeKind.object ∨ td.kind = TypeKind.inputObject ∨
        td.kind = TypeKind.enum ∨ td.kind = TypeKind.union ∨
        td.kind = TypeKind.interface := by
      cases htd : td.kind <;> simp_all
    simp only [convertFieldType, if_neg (by simpa using h1), if_neg (by simpa using h2),
      if_neg (by simpa using h3), if_neg (by simpa using h4), if_neg (by simpa using h5),
      hb, Bool.false_eq_true, if_false, hl]
    rcases hk' with h | h | h | h | h <;> simp [h]
  · intro hs hb hl
    have h1 : n ≠ str "Int" := fun he => by rw [he] at hs; exact absurd hs (by decide)
    have h2 : n ≠ str "Float" := fun he => by rw [he] at hs; exact absurd hs (by decide)
    have h3 : n ≠ str "String" := fun he => by rw [he] at hs; exact absurd hs (by decide)
    have h4 : n ≠ str "Boolean" := fun he => by rw [he] at hs; exact absurd hs (by decide)
    have h5 : n ≠ str "ID" := fun he => by rw [he] at hs; exact absurd hs (by decide)
    simp [convertFieldType, h1, h2, h3, h4, h5, hb, hl]

/-- Witness for claim C4: the declared-type clause at `User` in the
`User`/`Post` schema. -/
theorem c4_mapper_clauses_witness :
    convertFieldType exPostSchema (.named (str "User") false) =
      { emptySchema with ref := str "#/components/schemas/" ++ str "User" } :=
  (c4_mapper_clauses exPostSchema false (.named (str "ID") false) (str "User")
      exUser).2.2.2.2.2.2.2.1
    (by decide) (by decide) (by rfl) (by decide)

/-! ### Claim C6 -/

/-- Claim C6: the conversion errors exactly on parse failure, wrapping the
parser's message; any successfully parsed schema converts to a document (the
post-parse pipeline is a total function); and constraint arguments whose
value fails to parse are silently dropped by `applyConstraints`. -/
theorem c6_error_behavior (cfg : Config) (src : Str) (r : Except Str GqlSchema)
    (e : Str) (sch : GqlSchema) (sc : OASchema) (a : DirArg) (dn : Str) :
    ((∃ d, convertE cfg src r = .ok d) ↔ (∃ s, r = .ok s)) ∧
    (r = .error e →
      convertE cfg src r = .error (str "failed to parse GraphQL schema: " ++ e)) ∧
    (r = .ok sch → convertE cfg src r = .ok (convert cfg src sch)) ∧
    ((a.name = str "minLength" ∨ a.name = str "maxLength") →
      parseIntL (trimQuoteL a.raw) = none →
      applyConstraints sc { name := dn, args := [a] } = sc) ∧
    ((a.name = str "min" ∨ a.name = str "max") →
      parseFloatL (trimQuoteL a.raw) = none →
      applyConstraints sc { name := dn, args := [a] } = sc) := by
  refine ⟨?_, ?_, ?_, ?_, ?_⟩
  · constructor
    · rintro ⟨d, hd⟩
      cases r with
      | error e' => simp [convertE] at hd
      | ok s => exact ⟨s, rfl⟩
    · rintro ⟨s, hs⟩
      subst hs
      exact ⟨convert cfg src s, rfl⟩
  · rintro rfl
    rfl
  · rintro rfl
    rfl
  · rintro (hn | hn) hp <;>
      simp [applyConstraints, hn, hp, show str "maxLength" ≠ str "minLength" by decide]
  · rintro (hn | hn) hp <;>
      simp [applyConstraints, hn, hp,
        show str "min" ≠ str "minLength" by decide,
        show str "min" ≠ str "maxLength" by decide,
        show str "max" ≠ str "minLength" by decide,
        show str "max" ≠ str "maxLength" by decide,
        show str "max" ≠ str "min" by decide]

/-- Witness for claim C6: a parse error is wrapped; the CRUD scenario parses
and converts; an unparsable `min` value is dropped. -/
theorem c6_error_behavior_witness :
    convertE defaultConfig [] (.error (str "syntax error")) =
      .error (str "failed to parse GraphQL schema: " ++ str "syntax error") ∧
    convertE defaultConfig [] (.ok exCrudSchema) =
      .ok (convert defaultConfig [] exCrudSchema) ∧
    applyConstraints emptySchema
      { name := str "constraint",
        args := [{ name := str "min", raw := str "abc", isString := false }] } =
      emptySchema :=
  ⟨(c6_error_behavior defaultConfig [] (.error (str "syntax error"))
      (str "syntax error") exEmptySchema emptySchema
      { name := str "min", raw := str "abc", isString := false }
      (str "constraint")).2.1 rfl,
   (c6_error_behavior defaultConfig [] (.ok exCrudSchema) [] exCrudSchema emptySchema
      { name := str "min", raw := str "abc", isString := false }
      (str "constraint")).2.2.1 rfl,
   (c6_error_behavior defaultConfig [] (.ok exCrudSchema) [] exCrudSchema emptySchema
      { name := str "min", raw := str "abc", isString := false }
      (str "constraint")).2.2.2.2 (Or.inl rfl) (by rfl)⟩

/-! ### Claim C9: amended round-trip theorem -/

theorem hasPrefixL_nil (s : Str) : hasPrefixL s [] = true := by cases s <;> rfl

theorem hasPrefixL_cons (c : Char) (s : Str) (p : Char) (ps : Str) :
    hasPrefixL (c :: s) (p :: ps) = (decide (c = p) && hasPrefixL s ps) := rfl

theorem hasSuffixL_nil (s : Str) : hasSuffixL s [] = true := by
  unfold hasSuffixL
  exact hasPrefixL_nil _

theorem hasSuffixL_append_singleton (w s : Str) (c c' : Char) :
    hasSuffixL (w ++ [c]) (s ++ [c']) = (decide (c = c') && hasSuffixL w s) := by
  unfold hasSuffixL
  rw [List.reverse_append, List.reverse_append]
  simp only [List.reverse_cons, List.reverse_nil, List.nil_append, List.singleton_append]
  exact hasPrefixL_cons c w.reverse c' s.reverse

theorem exists_of_hasSuffix_singleton {w : Str} {c : Char}
    (h : hasSuffixL w [c] = true) : ∃ v, w = v ++ [c] := by
  unfold hasSuffixL at h
  cases hw : w.reverse with
  | nil => rw [hw] at h; exact absurd h (by simp [List.reverse_nil, hasPrefixL])
  | cons c0 t =>
    rw [hw] at h
    simp only [List.reverse_cons, List.reverse_nil, List.nil_append,
      hasPrefixL_cons, hasPrefixL_nil, Bool.and_true, decide_eq_true_eq] at h
    refine ⟨t.reverse, ?_⟩
    have hwr : w = (c0 :: t).reverse := by rw [← hw, List.reverse_reverse]
    rw [hwr, List.reverse_cons, h]

theorem pluralize_default_eq (w : Str)
    (hES : ∀ suf ∈ defaultConfig.pluralizeSuffixesES, hasSuffixL w suf = false)
    (hIES : iesGuard defaultConfig w = false) :
    pluralize defaultConfig w = w ++ str "s" := by
  unfold pluralize
  have h2 : defaultConfig.pluralizeSuffixesES.find? (fun suf => hasSuffixL w suf) = none := by
    apply List.find?_eq_none.mpr
    intro x hx
    simp [hES x hx]
  rw [show defaultConfig.customPlurals.find? (fun p => hasSuffixL w p.1) = none from rfl,
    h2, hIES]
  simp only [Bool.false_eq_true, if_false]
  rfl

/-- Claim C9 (amended): under the default configuration,
`singularize (pluralize w) = w` for every non-empty word `w` that matches
only the default-suffix pluralization rule AND whose pluralized form does
not accidentally match a singularization rule: `w` must not end in `"ie"`
(else `w ++ "s"` matches the `"ies"` reversal) and must not end in an
ES-suffix followed by `"e"` (else `w ++ "s"` matches the `"es"` reversal
with a sibilant base). -/
theorem singularize_default_shape (word : Str) :
    singularize defaultConfig word =
      (if hasSuffixL word (str "ies") && decide (word.length > 3) then
        word.take (word.length - 3) ++ str "y"
      else if hasSuffixL word (str "es") && decide (word.length > 2) then
        match defaultConfig.pluralizeSuffixesES.find?
            (fun suf => hasSuffixL (word.take (word.length - 2)) suf) with
        | some _ => word.take (word.length - 2)
        | none => word.take (word.length - 1)
      else if hasSuffixL word ['s'] && decide (word.length > 1) then
        word.take (word.length - 1)
      else word) := rfl

/-- Claim C9 (amended): under the default configuration,
`singularize (pluralize w) = w` for every non-empty word `w` that matches
only the default-suffix pluralization rule AND whose pluralized form does
not accidentally match a singularization rule: `w` must not end in `"ie"`
(else `w ++ "s"` matches the `"ies"` reversal) and must not end in an
ES-suffix followed by `"e"` (else `w ++ "s"` matches the `"es"` reversal
with a sibilant base). -/
theorem c9_roundtrip_amended (w : Str) (hne : w ≠ [])
    (hES : ∀ suf ∈ defaultConfig.pluralizeSuffixesES, hasSuffixL w suf = false)
    (hIES : iesGuard defaultConfig w = false)
    (hie : hasSuffixL w (str "ie") = false)
    (hEe : ∀ suf ∈ defaultConfig.pluralizeSuffixesES,
      hasSuffixL w (suf ++ ['e']) = false) :
    singularize defaultConfig (pluralize defaultConfig w) = w := by
  rw [pluralize_default_eq w hES hIES, show str "s" = ['s'] from rfl]
  have hwpos : 0 < w.length := List.length_pos.mpr hne
  have hies : hasSuffixL (w ++ ['s']) (str "ies") = false := by
    have h := hasSuffixL_append_singleton w (str "ie") 's' 's'
    rw [show str "ie" ++ ['s'] = str "ies" from rfl] at h
    rw [h]
    simp [hie]
  have hes : hasSuffixL (w ++ ['s']) (str "es") = hasSuffixL w ['e'] := by
    have h := hasSuffixL_append_singleton w ['e'] 's' 's'
    rw [show ['e'] ++ ['s'] = str "es" from rfl] at h
    rw [h]
    simp
  have hdef : hasSuffixL (w ++ ['s']) ['s'] = true := by
    have h := hasSuffixL_append_singleton w [] 's' 's'
    rw [List.nil_append] at h
    rw [h]
    simp [hasSuffixL_nil]
  rw [singularize_default_shape, hies]
  simp only [Bool.false_and, Bool.false_eq_true, if_false]
  by_cases hwe : hasSuffixL w ['e'] = true
  · obtain ⟨v, rfl⟩ := exists_of_hasSuffix_singleton hwe
    by_cases hv : v = []
    · subst hv
      decide
    · have hvpos : 0 < v.length := List.length_pos.mpr hv
      have hlen2 : ((v ++ ['e']) ++ ['s']).length = v.length + 2 := by simp
      rw [hes, hwe, hlen2, if_pos (by simp [hvpos])]
      have hbase : ((v ++ ['e']) ++ ['s']).take (v.length + 2 - 2) = v := by
        rw [List.append_assoc, show v.length + 2 - 2 = v.length from by omega]
        exact List.take_left v (['e'] ++ ['s'])
      rw [hbase]
      have hfind : defaultConfig.pluralizeSuffixesES.find?
          (fun suf => hasSuffixL v suf) = none := by
        apply List.find?_eq_none.mpr
        intro x hx
        have h := hEe x hx
        rw [hasSuffixL_append_singleton] at h
        simpa using h
      rw [hfind]
      rw [show v.length + 2 - 1 = (v ++ ['e']).length from by simp]
      exact List.take_left (v ++ ['e']) ['s']
  · have hwe' : hasSuffixL w ['e'] = false := by simpa using hwe
    rw [hes, hwe']
    simp only [Bool.false_and, Bool.false_eq_true, if_false]
    have hlen : (w ++ ['s']).length = w.length + 1 := by simp
    rw [hdef, hlen, if_pos (by simp [hwpos])]
    rw [show w.length + 1 - 1 = w.length from by omega]
    exact List.take_left w ['s']

/-- Witness for claim C9: the word `user` satisfies all side conditions and
round-trips. -/
theorem c9_roundtrip_amended_witness :
    singularize defaultConfig (pluralize defaultConfig (str "user")) = str "user" :=
  c9_roundtrip_amended (str "user") (by decide) (by decide) (by decide) (by decide)
    (by decide)

/-! ### Claim C8: amended characterization of the AST mutation -/

/-- The single field mutation the conversion performs, as the amended claim
words it: a field whose type is a non-list reference to a non-scalar,
non-built-in type has `"Id"` appended to its name; every other field is
untouched. -/
def renameFieldClaimed (f : FieldDef) : FieldDef :=
  match f.type with
  | .named tn _ =>
    if !isScalarType tn && !isBuiltInType tn then { f with name := f.name ++ str "Id" }
    else f
  | .list _ _ => f

/-- The type-level view of the mutation: only non-built-in object and
input-object declarations have their fields renamed. -/
def renameTypeClaimed (td : TypeDef) : TypeDef :=
  if !isBuiltInType td.name &&
      (decide (td.kind = TypeKind.object) || decide (td.kind = TypeKind.inputObject)) then
    { td with fields := td.fields.map renameFieldClaimed }
  else td

theorem processField_snd (cfg : Config) (sch : GqlSchema) (f : FieldDef) :
    (processField cfg sch f).2 = renameFieldClaimed f := by
  unfold processField renameFieldClaimed
  rcases hft : f.type with ⟨tn, nn⟩ | ⟨e, nn⟩
  · dsimp only
    split <;> rfl
  · dsimp only
    split <;> rfl

theorem convertTypeFields_fields (cfg : Config) (sch : GqlSchema) (fs : List FieldDef)
    (props : List (Str × OASchema)) (req : List Str) :
    (convertTypeFields cfg sch fs props req).2.2 = fs.map renameFieldClaimed := by
  induction fs generalizing props req with
  | nil => rfl
  | cons f rest ih =>
    have hsnd := processField_snd cfg sch f
    unfold convertTypeFields
    rcases hpf : processField cfg sch f with ⟨o, f'⟩
    rw [hpf] at hsnd
    cases o with
    | none => simp [List.map_cons, ← hsnd, ih]
    | some kv => simp [List.map_cons, ← hsnd, ih]

theorem convertAllTypes_snd (cfg : Config) (sch : GqlSchema) :
    (convertAllTypes cfg sch).2 = sch.types.map renameTypeClaimed := by
  unfold convertAllTypes
  suffices h : ∀ (l : List TypeDef) (acc : List (Str × OASchema) × List TypeDef),
      (l.foldl (convertTypeStep cfg sch) acc).2 = acc.2 ++ l.map renameTypeClaimed by
    simpa using h sch.types ([], [])
  intro l
  induction l with
  | nil => intro acc; simp
  | cons td rest ih =>
    intro acc
    rw [List.foldl_cons, ih, List.map_cons]
    have hstep : (convertTypeStep cfg sch acc td).2 = acc.2 ++ [renameTypeClaimed td] := by
      unfold convertTypeStep
      by_cases hb : isBuiltInType td.name
      · simp [hb, renameTypeClaimed]
      · rw [if_neg hb]
        cases hk : td.kind with
        | enum => simp [renameTypeClaimed, hb, hk]
        | union => simp [renameTypeClaimed, hb, hk]
        | interface => simp [renameTypeClaimed, hb, hk]
        | object =>
          have hct : convertType cfg sch td =
              ((convertType cfg sch td).1, { td with fields := td.fields.map renameFieldClaimed }) := by
            unfold convertType
            rw [if_neg (by simp [hk])]
            simp [convertTypeFields_fields]
          rw [hct]
          cases hs : (convertType cfg sch td).1 <;>
            simp [renameTypeClaimed, hb, hk]
        | inputObject =>
          have hct : convertType cfg sch td =
              ((convertType cfg sch td).1, { td with fields := td.fields.map renameFieldClaimed }) := by
            unfold convertType
            rw [if_neg (by simp [hk])]
            simp [convertTypeFields_fields]
          rw [hct]
          cases hs : (convertType cfg sch td).1 <;>
            simp [renameTypeClaimed, hb, hk]
        | scalar =>
          have hct : convertType cfg sch td = (none, td) := by
            unfold convertType
            rw [if_pos (by simp [hk])]
          rw [hct]
          simp [renameTypeClaimed, hb, hk]
    rw [hstep]
    simp

/-- Claim C8 (amended): the conversion mutates the parsed AST in exactly one
way — in every non-built-in object or input-object declaration, each field
whose type is a non-list reference to a non-scalar, non-built-in type has its
name changed in place by appending `"Id"`; every other part of the AST
(type names, kinds, descriptions, root bindings, all other fields, their
types, arguments and directives) is unchanged. -/
theorem c8_ast_mutation_amended (cfg : Config) (sch : GqlSchema) :
    convertAST cfg sch = { sch with types := sch.types.map renameTypeClaimed } := by
  unfold convertAST
  rw [convertAllTypes_snd]

/-! ### Claim C2: amended reference-flattening theorem -/

/-- The property key a field contributes to its owner's schema (`none` when
the field is dropped). -/
def propKeyOf (cfg : Config) (sch : GqlSchema) (g : FieldDef) : Option Str :=
  ((processField cfg sch g).1).map Prod.fst

theorem processField_ref (cfg : Config) (sch : GqlSchema) (f : FieldDef)
    (tn : Str) (nn : Bool) (hft : f.type = GqlType.named tn nn)
    (hs : isScalarType tn = false) (hb : isBuiltInType tn = false) :
    (processField cfg sch f).1 =
      some (f.name ++ str "Id", refReplacementSchema cfg tn f.name) := by
  unfold processField
  rw [hft]
  dsimp only
  rw [if_pos (by simp [hs, hb])]

theorem convertTypeFields_lookup (cfg : Config) (sch : GqlSchema) (k : Str)
    (v : OASchema) :
    ∀ (fs : List FieldDef) (props : List (Str × OASchema)) (req : List Str),
    (∀ g ∈ fs, propKeyOf cfg sch g = some k → (processField cfg sch g).1 = some (k, v)) →
    ((∃ g ∈ fs, propKeyOf cfg sch g = some k) ∨ lookupKV props k = some v) →
    lookupKV (convertTypeFields cfg sch fs props req).1 k = some v := by
  intro fs
  induction fs with
  | nil =>
    intro props req _ hsrc
    rcases hsrc with ⟨g, hg, _⟩ | h
    · exact absurd hg (List.not_mem_nil g)
    · exact h
  | cons g rest ih =>
    intro props req hwrites hsrc
    unfold convertTypeFields
    rcases hpf : processField cfg sch g with ⟨o, g'⟩
    cases o with
    | none =>
      dsimp only
      apply ih props req (fun x hx => hwrites x (List.mem_cons_of_mem g hx))
      rcases hsrc with ⟨x, hx, hk⟩ | h
      · rcases List.mem_cons.mp hx with rfl | hx'
        · rw [propKeyOf, hpf] at hk
          simp at hk
        · exact Or.inl ⟨x, hx', hk⟩
      · exact Or.inr h
    | some kv =>
      obtain ⟨k0, v0⟩ := kv
      dsimp only
      by_cases hk0 : k0 = k
      · subst hk0
        have hw : (processField cfg sch g).1 = some (k0, v) := by
          apply hwrites g (List.mem_cons_self g rest)
          rw [propKeyOf, hpf]
          rfl
        rw [hpf] at hw
        have hv0 : v0 = v := by simpa using hw
        subst hv0
        apply ih _ _ (fun x hx => hwrites x (List.mem_cons_of_mem g hx))
        exact Or.inr (by rw [lookupKV_insertKV_self])
      · apply ih _ _ (fun x hx => hwrites x (List.mem_cons_of_mem g hx))
        rcases hsrc with ⟨x, hx, hk⟩ | h
        · rcases List.mem_cons.mp hx with rfl | hx'
          · rw [propKeyOf, hpf] at hk
            simp at hk
            exact absurd hk hk0
          · exact Or.inl ⟨x, hx', hk⟩
        · exact Or.inr (by rw [lookupKV_insertKV_ne _ _ _ _ hk0]; exact h)

theorem convertTypeFields_req_mem (cfg : Config) (sch : GqlSchema) (k : Str) :
    ∀ (fs : List FieldDef) (props : List (Str × OASchema)) (req : List Str),
    (k ∈ (convertTypeFields cfg sch fs props req).2.1 ↔
      k ∈ req ∨ ∃ g ∈ fs, propKeyOf cfg sch g = some k ∧ g.type.nonNull = true) := by
  intro fs
  induction fs with
  | nil =>
    intro props req
    simp [convertTypeFields]
  | cons g rest ih =>
    intro props req
    unfold convertTypeFields
    rcases hpf : processField cfg sch g with ⟨o, g'⟩
    cases o with
    | none =>
      dsimp only
      rw [ih]
      constructor
      · rintro (h | ⟨x, hx, hk, hnn⟩)
        · exact Or.inl h
        · exact Or.inr ⟨x, List.mem_cons_of_mem g hx, hk, hnn⟩
      · rintro (h | ⟨x, hx, hk, hnn⟩)
        · exact Or.inl h
        · rcases List.mem_cons.mp hx with rfl | hx'
          · rw [propKeyOf, hpf] at hk
            simp at hk
          · exact Or.inr ⟨x, hx', hk, hnn⟩
    | some kv =>
      obtain ⟨k0, v0⟩ := kv
      dsimp only
      rw [ih]
      have hkey : propKeyOf cfg sch g = some k0 := by rw [propKeyOf, hpf]; rfl
      by_cases hnn : g.type.nonNull = true
      · rw [if_pos hnn]
        constructor
        · rintro (h | ⟨x, hx, hk, hxnn⟩)
          · rcases List.mem_append.mp h with h | h
            · exact Or.inl h
            · have hk0 : k = k0 := by simpa using h
              exact Or.inr ⟨g, List.mem_cons_self g rest, by rw [hkey, ← hk0], hnn⟩
          · exact Or.inr ⟨x, List.mem_cons_of_mem g hx, hk, hxnn⟩
        · rintro (h | ⟨x, hx, hk, hxnn⟩)
          · exact Or.inl (List.mem_append.mpr (Or.inl h))
          · rcases List.mem_cons.mp hx with rfl | hx'
            · rw [hkey] at hk
              have : k0 = k := by simpa using hk
              exact Or.inl (List.mem_append.mpr (Or.inr (by simp [this])))
            · exact Or.inr ⟨x, hx', hk, hxnn⟩
      · rw [if_neg hnn]
        constructor
        · rintro (h | ⟨x, hx, hk, hxnn⟩)
          · exact Or.inl h
          · exact Or.inr ⟨x, List.mem_cons_of_mem g hx, hk, hxnn⟩
        · rintro (h | ⟨x, hx, hk, hxnn⟩)
          · exact Or.inl h
          · rcases List.mem_cons.mp hx with rfl | hx'
            · exact absurd hxnn hnn
            · exact Or.inr ⟨x, hx', hk, hxnn⟩

/-- Claim C2 (amended): for a field `f` of an object or input-object type
whose type is a non-list reference to a declared non-scalar, non-built-in
type, the component schema holds the property `f.name ++ "Id"` with schema
`{type: string, description: "Reference to <X>.id - use GET
/<plural(lower X)>/{<f>Id}"}` (ASCII hyphen), and if the reference is
non-null the renamed key is in the required list.  The side condition
`huniq` rules out a later field writing the same property key (map writes
overwrite). -/
theorem c2_reference_flattening_amended (cfg : Config) (sch : GqlSchema)
    (td : TypeDef) (f : FieldDef) (tn : Str) (nn : Bool)
    (hkind : td.kind = TypeKind.object ∨ td.kind = TypeKind.inputObject)
    (hf : f ∈ td.fields)
    (hft : f.type = GqlType.named tn nn)
    (hs : isScalarType tn = false) (hb : isBuiltInType tn = false)
    (_hdecl : (lookupType sch tn).isSome = true)
    (huniq : ∀ g ∈ td.fields, propKeyOf cfg sch g = some (f.name ++ str "Id") → g = f) :
    ∃ s, (convertType cfg sch td).1 = some s ∧
      lookupKV s.properties (f.name ++ str "Id") =
        some (refReplacementSchema cfg tn f.name) ∧
      (nn = true → (f.name ++ str "Id") ∈ s.required) := by
  have hpk : (processField cfg sch f).1 =
      some (f.name ++ str "Id", refReplacementSchema cfg tn f.name) :=
    processField_ref cfg sch f tn nn hft hs hb
  have hkey : propKeyOf cfg sch f = some (f.name ++ str "Id") := by
    rw [propKeyOf, hpk]
    rfl
  have hne : ¬(td.kind ≠ TypeKind.object ∧ td.kind ≠ TypeKind.inputObject) := by
    rcases hkind with h | h <;> simp [h]
  refine ⟨_, by unfold convertType; rw [if_neg hne], ?_, ?_⟩
  · dsimp only
    apply convertTypeFields_lookup cfg sch _ _ td.fields [] []
    · intro g hg hgk
      rw [huniq g hg hgk]
      exact hpk
    · exact Or.inl ⟨f, hf, hkey⟩
  · intro hnn
    dsimp only
    rw [convertTypeFields_req_mem]
    refine Or.inr ⟨f, hf, hkey, ?_⟩
    rw [hft] at *
    simpa [GqlType.nonNull] using hnn

/-- Witness for claim C2: the `Post.author : User!` field of the example
schema. -/
theorem c2_reference_flattening_amended_witness :
    ∃ s, (convertType defaultConfig exPostSchema exPost).1 = some s ∧
      lookupKV s.properties (str "author" ++ str "Id") =
        some (refReplacementSchema defaultConfig (str "User") (str "author")) ∧
      (true = true → (str "author" ++ str "Id") ∈ s.required) :=
  c2_reference_flattening_amended defaultConfig exPostSchema exPost
    (plainField (str "author") (.named (str "User") true)) (str "User") true
    (Or.inl (by decide)) (by decide) (by decide) (by decide) (by decide) (by decide)
    (by decide)

/-! ### Claim C5: subscription path and parameter shape -/

theorem find?_eq_some_split {α : Type} (p : α → Bool) :
    ∀ (l : List α) (a : α), l.find? p = some a →
      ∃ pre post, l = pre ++ a :: post ∧ (∀ x ∈ pre, p x = false) := by
  intro l
  induction l with
  | nil => intro a h; simp at h
  | cons hd tl ih =>
    intro a h
    by_cases hp : p hd
    · rw [List.find?_cons_of_pos _ hp] at h
      obtain rfl : hd = a := by simpa using h
      exact ⟨[], tl, rfl, by simp⟩
    · rw [List.find?_cons_of_neg _ hp] at h
      obtain ⟨pre, post, rfl, hpre⟩ := ih a h
      refine ⟨hd :: pre, post, rfl, ?_⟩
      intro x hx
      rcases List.mem_cons.mp hx with rfl | hx'
      · simpa using hp
      · exact hpre x hx'

theorem subscriptionParams_all_query (sch : GqlSchema) :
    ∀ (l : List ArgDef), subscriptionParams sch l true = l.map (subQueryParam sch) := by
  intro l
  induction l with
  | nil => rfl
  | cons a rest ih =>
    unfold subscriptionParams
    simp [ih]

theorem subscriptionParams_split (sch : GqlSchema) (a : ArgDef)
    (ha : a.type.nonNull = true) :
    ∀ (pre post : List ArgDef), (∀ x ∈ pre, x.type.nonNull = false) →
      subscriptionParams sch (pre ++ a :: post) false =
        pre.map (subQueryParam sch) ++
          subPathParam sch a :: post.map (subQueryParam sch) := by
  intro pre
  induction pre with
  | nil =>
    intro post _
    simp only [List.nil_append, List.map_nil]
    unfold subscriptionParams
    rw [if_pos (by simp [ha]), subscriptionParams_all_query]
  | cons x rest ih =>
    intro post hpre
    have hx : x.type.nonNull = false := hpre x (List.mem_cons_self x rest)
    simp only [List.cons_append, List.map_cons]
    unfold subscriptionParams
    rw [if_neg (by simp [hx])]
    rw [ih post (fun y hy => hpre y (List.mem_cons_of_mem x hy))]

theorem applyDeprecatedOp_responses (f : FieldDef) (op : Operation) :
    (applyDeprecatedOp f op).responses = op.responses := by
  unfold applyDeprecatedOp
  split
  · rfl
  · dsimp only
    split <;> rfl

theorem applyDeprecatedOp_parameters (f : FieldDef) (op : Operation) :
    (applyDeprecatedOp f op).parameters = op.parameters := by
  unfold applyDeprecatedOp
  split
  · rfl
  · dsimp only
    split <;> rfl

theorem convertSubscriptionField_parameters (sch : GqlSchema) (f : FieldDef) :
    (convertSubscriptionField sch f).parameters =
      subscriptionParams sch f.args false := rfl

theorem convertSubscriptionField_responses (sch : GqlSchema) (f : FieldDef) :
    ∃ s, ((lookupKV (convertSubscriptionField sch f).responses (str "200")).bind
        (fun r => lookupKV r.content (str "text/event-stream"))).bind
        (fun mt => mt.schema) = some s ∧ s.type = str "string" := by
  unfold convertSubscriptionField
  dsimp only
  rw [applyDeprecatedOp_responses]
  split
  · exact ⟨_, rfl, rfl⟩
  · exact ⟨_, rfl, rfl⟩

theorem convertSubscriptions_lookupGet (cfg : Config) (sch : GqlSchema)
    (f : FieldDef) (hni : hasPrefixL f.name (str "__") = false) :
    ∀ (l : List FieldDef) (paths : List (Str × PathItem)),
    ((f ∈ l) ∨ lookupGet paths (buildSubscriptionPath cfg f) =
      some (convertSubscriptionField sch f)) →
    (∀ g ∈ l, hasPrefixL g.name (str "__") = false →
      buildSubscriptionPath cfg g = buildSubscriptionPath cfg f → g = f) →
    lookupGet
      (l.foldl
        (fun acc g =>
          if hasPrefixL g.name (str "__") then acc
          else setGet acc (buildSubscriptionPath cfg g) (convertSubscriptionField sch g))
        paths)
      (buildSubscriptionPath cfg f) = some (convertSubscriptionField sch f) := by
  intro l
  induction l with
  | nil =>
    intro paths hsrc _
    rcases hsrc with h | h
    · exact absurd h (List.not_mem_nil f)
    · exact h
  | cons g rest ih =>
    intro paths hsrc hdist
    rw [List.foldl_cons]
    by_cases hg : hasPrefixL g.name (str "__") = true
    · rw [if_pos hg]
      apply ih _ ?_ (fun x hx => hdist x (List.mem_cons_of_mem g hx))
      rcases hsrc with h | h
      · rcases List.mem_cons.mp h with rfl | h'
        · rw [hni] at hg
          exact absurd hg (by simp)
        · exact Or.inl h'
      · exact Or.inr h
    · rw [if_neg hg]
      by_cases hpath : buildSubscriptionPath cfg g = buildSubscriptionPath cfg f
      · have hgf : g = f :=
          hdist g (List.mem_cons_self g rest) (by simpa using hg) hpath
        subst hgf
        apply ih _ ?_ (fun x hx => hdist x (List.mem_cons_of_mem g hx))
        exact Or.inr (by rw [lookupGet_setGet_self])
      · apply ih _ ?_ (fun x hx => hdist x (List.mem_cons_of_mem g hx))
        rcases hsrc with h | h
        · rcases List.mem_cons.mp h with rfl | h'
          · exact absurd rfl hpath
          · exact Or.inl h'
        · exact Or.inr (by rw [lookupGet_setGet_ne _ _ _ _ hpath]; exact h)

/-- Claim C5: for a subscription root field (not introspection-prefixed)
with at least one non-null argument, the emitted path (under an empty path
prefix) is `/{fieldName}/{firstNonNullArgName}`, registered as a `GET`;
the first non-null argument in declaration order is the only path parameter,
every other argument (including later non-null ones) becomes a query
parameter; and the 200 response carries a `text/event-stream` content type
with a string-typed schema. -/
theorem c5_subscription_shape (cfg : Config) (sch : GqlSchema) (subTy : TypeDef)
    (paths : List (Str × PathItem)) (f : FieldDef) (a : ArgDef)
    (hp : cfg.pathPrefixCfg = [])
    (hf : f ∈ subTy.fields)
    (hni : hasPrefixL f.name (str "__") = false)
    (ha : f.args.find? (fun x => x.type.nonNull) = some a)
    (hdist : ∀ g ∈ subTy.fields, hasPrefixL g.name (str "__") = false →
      buildSubscriptionPath cfg g = buildSubscriptionPath cfg f → g = f) :
    buildSubscriptionPath cfg f =
      str "/" ++ f.name ++ str "/\x7b" ++ a.name ++ str "\x7d" ∧
    lookupGet (convertSubscriptions cfg sch subTy paths)
      (buildSubscriptionPath cfg f) = some (convertSubscriptionField sch f) ∧
    (∃ pre post, f.args = pre ++ a :: post ∧ (∀ x ∈ pre, x.type.nonNull = false) ∧
      (convertSubscriptionField sch f).parameters =
        pre.map (subQueryParam sch) ++
          subPathParam sch a :: post.map (subQueryParam sch)) ∧
    (∀ p ∈ (convertSubscriptionField sch f).parameters,
      p.loc = str "path" → p = subPathParam sch a) ∧
    (∃ s, ((lookupKV (convertSubscriptionField sch f).responses (str "200")).bind
        (fun r => lookupKV r.content (str "text/event-stream"))).bind
        (fun mt => mt.schema) = some s ∧ s.type = str "string") := by
  have hann : a.type.nonNull = true := by
    have h := List.find?_some ha
    simpa using h
  obtain ⟨pre, post, hsplit, hpre⟩ := find?_eq_some_split _ f.args a ha
  have hparams : (convertSubscriptionField sch f).parameters =
      pre.map (subQueryParam sch) ++
        subPathParam sch a :: post.map (subQueryParam sch) := by
    rw [convertSubscriptionField_parameters, hsplit,
      subscriptionParams_split sch a hann pre post hpre]
  refine ⟨?_, ?_, ⟨pre, post, hsplit, hpre, hparams⟩, ?_, ?_⟩
  · unfold buildSubscriptionPath
    rw [ha]
    unfold prefixedPath
    rw [hp]
    simp
  · exact convertSubscriptions_lookupGet cfg sch f hni subTy.fields paths
      (Or.inl hf) hdist
  · intro p hp' hloc
    rw [hparams] at hp'
    rcases List.mem_append.mp hp' with h | h
    · obtain ⟨x, _, rfl⟩ := List.mem_map.mp h
      unfold subQueryParam at hloc
      rcases hiss : (x.type.elem?).isSome with _ | _ <;>
        rw [hiss] at hloc <;> simp at hloc <;>
        exact absurd hloc (by decide)
    · rcases List.mem_cons.mp h with rfl | h'
      · rfl
      · obtain ⟨x, _, rfl⟩ := List.mem_map.mp h'
        unfold subQueryParam at hloc
        rcases hiss : (x.type.elem?).isSome with _ | _ <;>
          rw [hiss] at hloc <;> simp at hloc <;>
          exact absurd hloc (by decide)
  · exact convertSubscriptionField_responses sch f

/-- `type Subscription { messageStream(channelId: ID!, userId: ID): Message! }`. -/
def exSubscriptionType : TypeDef :=
  objectType (str "Subscription")
    [{ name := str "messageStream", description := [],
       type := .named (str "Message") true,
       args := [plainArg (str "channelId") (.named (str "ID") true),
                plainArg (str "userId") (.named (str "ID") false)],
       directives := [] }]

/-- `type Message { id: ID! }` plus the subscription root. -/
def exSubscriptionSchema : GqlSchema :=
  { types := [objectType (str "Message") [plainField (str "id") (.named (str "ID") true)],
              exSubscriptionType],
    queryName := none, mutationName := none,
    subscriptionName := some (str "Subscription") }

/-- Witness for claim C5: the specification's `messageStream` scenario. -/
theorem c5_subscription_shape_witness :
    buildSubscriptionPath defaultConfig
      { name := str "messageStream", description := [],
        type := .named (str "Message") true,
        args := [plainArg (str "channelId") (.named (str "ID") true),
                 plainArg (str "userId") (.named (str "ID") false)],
        directives := [] } =
      str "/" ++ str "messageStream" ++ str "/\x7b" ++ str "channelId" ++ str "\x7d" ∧
    lookupGet
      (convertSubscriptions defaultConfig exSubscriptionSchema exSubscriptionType [])
      (buildSubscriptionPath defaultConfig
        { name := str "messageStream", description := [],
          type := .named (str "Message") true,
          args := [plainArg (str "channelId") (.named (str "ID") true),
                   plainArg (str "userId") (.named (str "ID") false)],
          directives := [] }) =
      some (convertSubscriptionField exSubscriptionSchema
        { name := str "messageStream", description := [],
          type := .named (str "Message") true,
          args := [plainArg (str "channelId") (.named (str "ID") true),
                   plainArg (str "userId") (.named (str "ID") false)],
          directives := [] }) := by
  have h := c5_subscription_shape defaultConfig exSubscriptionSchema exSubscriptionType
    []
    { name := str "messageStream", description := [],
      type := .named (str "Message") true,
      args := [plainArg (str "channelId") (.named (str "ID") true),
               plainArg (str "userId") (.named (str "ID") false)],
      directives := [] }
    (plainArg (str "channelId") (.named (str "ID") true))
    (by rfl) (by decide) (by decide) (by rfl) (by decide)
  exact ⟨h.1, h.2.1⟩

/-! ### Claim C10: every emitted operation has a 200 response -/

/-- An operation's responses map contains a `"200"` entry. -/
def opHas200 (op : Operation) : Prop :=
  (lookupKV op.responses (str "200")).isSome = true

/-- `op` is one of the operations registered in the path item. -/
def opOfPathItem (pi : PathItem) (op : Operation) : Prop :=
  pi.get = some op ∨ pi.post = some op ∨ pi.put = some op ∨
  pi.delete = some op ∨ pi.patch = some op ∨ pi.options = some op

/-- Every operation of every path item has a `"200"` response. -/
def docPathsOK (paths : List (Str × PathItem)) : Prop :=
  ∀ kpi ∈ paths, ∀ op : Operation, opOfPathItem kpi.2 op → opHas200 op

theorem lookupKV_mem {β : Type} {m : List (Str × β)} {k : Str} {v : β}
    (h : lookupKV m k = some v) : (k, v) ∈ m := by
  induction m with
  | nil => simp at h
  | cons hd tl ih =>
    obtain ⟨k₀, v₀⟩ := hd
    rw [lookupKV_cons] at h
    by_cases h0 : k₀ = k
    · rw [if_pos h0] at h
      obtain rfl : v₀ = v := by simpa using h
      subst h0
      exact List.mem_cons_self _ _
    · rw [if_neg h0] at h
      exact List.mem_cons_of_mem _ (ih h)

theorem opHas200_jsonResponse200 (s : OASchema) (rest : Operation) :
    opHas200 { rest with responses := jsonResponse200 s } := by
  unfold opHas200 jsonResponse200
  rfl

theorem opHas200_of_responses_eq {op op' : Operation}
    (h : op.responses = op'.responses) (h' : opHas200 op') : opHas200 op := by
  unfold opHas200 at *
  rw [h]
  exact h'

theorem opHas200_patternListOp (pat : RESTPattern) : opHas200 (patternListOp pat) := by
  unfold opHas200 patternListOp jsonResponse200
  rfl

theorem opHas200_patternGetOp (resource : Str) (pat : RESTPattern) :
    opHas200 (patternGetOp resource pat) := by
  unfold opHas200 patternGetOp jsonResponse200
  rfl

theorem opHas200_subResourceOp (td : TypeDef) (f : FieldDef) (en : Str) :
    opHas200 (subResourceOp td f en) := by
  unfold opHas200 subResourceOp jsonResponse200
  rfl

theorem convertQueryField_responses (sch : GqlSchema) (f : FieldDef) :
    (convertQueryField sch f).responses =
      jsonResponse200 (convertFieldType sch f.type) := by
  unfold convertQueryField
  dsimp only
  rw [applyDeprecatedOp_responses]
  split <;> rfl

theorem opHas200_convertQueryField (sch : GqlSchema) (f : FieldDef) :
    opHas200 (convertQueryField sch f) := by
  unfold opHas200
  rw [convertQueryField_responses]
  rfl

theorem convertMutationField_responses (sch : GqlSchema) (f : FieldDef) (fb : Str) :
    (convertMutationField sch f fb).responses =
      jsonResponse200 (convertFieldType sch f.type) := by
  unfold convertMutationField
  dsimp only
  split
  · dsimp only
    rw [applyDeprecatedOp_responses]
  · rw [applyDeprecatedOp_responses]

theorem opHas200_convertMutationField (sch : GqlSchema) (f : FieldDef) (fb : Str) :
    opHas200 (convertMutationField sch f fb) := by
  unfold opHas200
  rw [convertMutationField_responses]
  rfl

theorem convertSubscriptionField_responses_200 (sch : GqlSchema) (f : FieldDef) :
    opHas200 (convertSubscriptionField sch f) := by
  unfold opHas200 convertSubscriptionField
  dsimp only
  rw [applyDeprecatedOp_responses]
  split <;> rfl

theorem docPathsOK_setGet (p : List (Str × PathItem)) (k : Str) (op : Operation)
    (hok : docPathsOK p) (hop : opHas200 op) : docPathsOK (setGet p k op) := by
  intro kpi hmem op' hops
  rcases mem_insertKV hmem with heq | hmem'
  · subst heq
    rcases hops with h | h | h | h | h | h
    · obtain rfl : op = op' := by simpa using h
      exact hop
    all_goals {
      cases hlk : lookupKV p k with
      | some pi =>
        rw [hlk] at h
        exact hok (k, pi) (lookupKV_mem hlk) op'
          (by unfold opOfPathItem; simp_all)
      | none =>
        rw [hlk] at h
        simp [emptyPathItem] at h
    }
  · exact hok kpi hmem' op' hops

theorem docPathsOK_setPost (p : List (Str × PathItem)) (k : Str) (op : Operation)
    (hok : docPathsOK p) (hop : opHas200 op) : docPathsOK (setPost p k op) := by
  intro kpi hmem op' hops
  rcases mem_insertKV hmem with heq | hmem'
  · subst heq
    rcases hops with h | h | h | h | h | h
    · cases hlk : lookupKV p k with
      | some pi =>
        rw [hlk] at h
        exact hok (k, pi) (lookupKV_mem hlk) op' (by unfold opOfPathItem; simp_all)
      | none =>
        rw [hlk] at h
        simp [emptyPathItem] at h
    · obtain rfl : op = op' := by simpa using h
      exact hop
    all_goals {
      cases hlk : lookupKV p k with
      | some pi =>
        rw [hlk] at h
        exact hok (k, pi) (lookupKV_mem hlk) op' (by unfold opOfPathItem; simp_all)
      | none =>
        rw [hlk] at h
        simp [emptyPathItem] at h
    }
  · exact hok kpi hmem' op' hops

theorem docPathsOK_setPut (p : List (Str × PathItem)) (k : Str) (op : Operation)
    (hok : docPathsOK p) (hop : opHas200 op) : docPathsOK (setPut p k op) := by
  intro kpi hmem op' hops
  rcases mem_insertKV hmem with heq | hmem'
  · subst heq
    rcases hops with h | h | h | h | h | h
    case inr.inr.inl =>
      obtain rfl : op = op' := by simpa using h
      exact hop
    all_goals {
      cases hlk : lookupKV p k with
      | some pi =>
        rw [hlk] at h
        exact hok (k, pi) (lookupKV_mem hlk) op' (by unfold opOfPathItem; simp_all)
      | none =>
        rw [hlk] at h
        simp [emptyPathItem] at h
    }
  · exact hok kpi hmem' op' hops

theorem docPathsOK_setDelete (p : List (Str × PathItem)) (k : Str) (op : Operation)
    (hok : docPathsOK p) (hop : opHas200 op) : docPathsOK (setDelete p k op) := by
  intro kpi hmem op' hops
  rcases mem_insertKV hmem with heq | hmem'
  · subst heq
    rcases hops with h | h | h | h | h | h
    case inr.inr.inr.inl =>
      obtain rfl : op = op' := by simpa using h
      exact hop
    all_goals {
      cases hlk : lookupKV p k with
      | some pi =>
        rw [hlk] at h
        exact hok (k, pi) (lookupKV_mem hlk) op' (by unfold opOfPathItem; simp_all)
      | none =>
        rw [hlk] at h
        simp [emptyPathItem] at h
    }
  · exact hok kpi hmem' op' hops

theorem docPathsOK_ensurePath (p : List (Str × PathItem)) (k : Str)
    (hok : docPathsOK p) : docPathsOK (ensurePath p k) := by
  unfold ensurePath
  cases hlk : lookupKV p k with
  | some pi => exact hok
  | none =>
    intro kpi hmem op' hops
    rcases mem_insertKV hmem with heq | hmem'
    · subst heq
      rcases hops with h | h | h | h | h | h <;> simp [emptyPathItem] at h
    · exact hok kpi hmem' op' hops

theorem docPathsOK_queriesPatternStep (cfg : Config)
    (acc : List (Str × PathItem) × List Str) (e : Str × RESTPattern)
    (h : docPathsOK acc.1) : docPathsOK (queriesPatternStep cfg acc e).1 := by
  unfold queriesPatternStep
  dsimp only
  split
  · split
    · exact docPathsOK_setGet _ _ _ (docPathsOK_setGet _ _ _ h (opHas200_patternListOp _))
        (opHas200_patternGetOp _ _)
    · exact docPathsOK_setGet _ _ _ h (opHas200_patternGetOp _ _)
  · split
    · exact docPathsOK_setGet _ _ _ h (opHas200_patternListOp _)
    · exact h

theorem docPathsOK_subResourcePass (cfg : Config) (sch : GqlSchema)
    (paths : List (Str × PathItem)) (h : docPathsOK paths) :
    docPathsOK (subResourcePass cfg sch paths) := by
  unfold subResourcePass
  apply foldl_inv docPathsOK
  · exact h
  · intro b td hb
    split
    · exact hb
    · apply foldl_inv docPathsOK
      · exact hb
      · intro b' f hb'
        split
        · split
          · split
            · exact hb'
            · exact docPathsOK_setGet _ _ _ hb' (opHas200_subResourceOp _ _ _)
          · exact hb'
        · exact hb'

theorem docPathsOK_convertQueries (cfg : Config) (sch : GqlSchema)
    (queryType : TypeDef) (restPatterns : List (Str × RESTPattern))
    (paths : List (Str × PathItem)) (h : docPathsOK paths) :
    docPathsOK (convertQueries cfg sch queryType restPatterns paths) := by
  unfold convertQueries
  dsimp only
  apply docPathsOK_subResourcePass
  apply foldl_inv docPathsOK
  · exact (foldl_inv (fun acc => docPathsOK acc.1) (queriesPatternStep cfg)
      restPatterns (paths, []) h (fun b a hb => docPathsOK_queriesPatternStep cfg b a hb))
  · intro b f hb
    split
    · exact hb
    · split
      · exact hb
      · exact docPathsOK_setGet _ _ _ hb (opHas200_convertQueryField sch f)

theorem docPathsOK_mutationsCreateStage (cfg : Config) (sch : GqlSchema)
    (mt : TypeDef) (acc : List (Str × PathItem) × List Str) (e : Str × RESTPattern)
    (h : docPathsOK acc.1) : docPathsOK (mutationsCreateStage cfg sch mt acc e).1 := by
  unfold mutationsCreateStage
  dsimp only
  split
  · split
    · exact docPathsOK_setPost _ _ _ (docPathsOK_ensurePath _ _ h)
        (opHas200_convertMutationField _ _ _)
    · exact docPathsOK_ensurePath _ _ h
  · exact h

theorem docPathsOK_mutationsUpdateStage (cfg : Config) (sch : GqlSchema)
    (mt : TypeDef) (acc : List (Str × PathItem) × List Str) (e : Str × RESTPattern)
    (h : docPathsOK acc.1) : docPathsOK (mutationsUpdateStage cfg sch mt acc e).1 := by
  unfold mutationsUpdateStage
  dsimp only
  split
  · split
    · apply docPathsOK_setPut _ _ _ (docPathsOK_ensurePath _ _ h)
      exact opHas200_of_responses_eq rfl (opHas200_convertMutationField _ _ _)
    · exact docPathsOK_ensurePath _ _ h
  · exact h

theorem docPathsOK_mutationsDeleteStage (cfg : Config) (sch : GqlSchema)
    (mt : TypeDef) (acc : List (Str × PathItem) × List Str) (e : Str × RESTPattern)
    (h : docPathsOK acc.1) : docPathsOK (mutationsDeleteStage cfg sch mt acc e).1 := by
  unfold mutationsDeleteStage
  dsimp only
  split
  · split
    · apply docPathsOK_setDelete _ _ _ (docPathsOK_ensurePath _ _ h)
      split
      · split
        · exact opHas200_of_responses_eq rfl (opHas200_convertMutationField _ _ _)
        · exact opHas200_convertMutationField _ _ _
      · exact opHas200_convertMutationField _ _ _
    · exact docPathsOK_ensurePath _ _ h
  · exact h

theorem docPathsOK_convertMutations (cfg : Config) (sch : GqlSchema)
    (mutationType : TypeDef) (restPatterns : List (Str × RESTPattern))
    (paths : List (Str × PathItem)) (h : docPathsOK paths) :
    docPathsOK (convertMutations cfg sch mutationType restPatterns paths) := by
  unfold convertMutations
  dsimp only
  apply foldl_inv docPathsOK
  · exact (foldl_inv (fun acc => docPathsOK acc.1)
      (mutationsPatternStep cfg sch mutationType) restPatterns (paths, []) h
      (fun b a hb =>
        docPathsOK_mutationsDeleteStage cfg sch mutationType _ a
          (docPathsOK_mutationsUpdateStage cfg sch mutationType _ a
            (docPathsOK_mutationsCreateStage cfg sch mutationType b a hb))))
  · intro b f hb
    split
    · exact hb
    · exact docPathsOK_setPost _ _ _ hb (opHas200_convertMutationField sch f _)

theorem docPathsOK_convertSubscriptions (cfg : Config) (sch : GqlSchema)
    (subscriptionType : TypeDef) (paths : List (Str × PathItem))
    (h : docPathsOK paths) :
    docPathsOK (convertSubscriptions cfg sch subscriptionType paths) := by
  unfold convertSubscriptions
  apply foldl_inv docPathsOK
  · exact h
  · intro b f hb
    split
    · exact hb
    · exact docPathsOK_setGet _ _ _ hb (convertSubscriptionField_responses_200 sch f)

theorem docPathsOK_convert (cfg : Config) (src : Str) (sch : GqlSchema) :
    docPathsOK (convert cfg src sch).paths := by
  unfold convert
  dsimp only
  have h0 : docPathsOK ([] : List (Str × PathItem)) := by
    intro kpi hmem
    simp at hmem
  have h1 : ∀ paths, docPathsOK paths →
      docPathsOK
        (match rootDef { sch with types := (convertAllTypes cfg sch).2 }
            { sch with types := (convertAllTypes cfg sch).2 }.queryName with
        | some q =>
          convertQueries cfg { sch with types := (convertAllTypes cfg sch).2 } q
            (if cfg.detectRESTPatternsCfg then detectRESTPatterns cfg sch else []) paths
        | none => paths) := by
    intro paths hp
    split
    · exact docPathsOK_convertQueries _ _ _ _ _ hp
    · exact hp
  have h2 : ∀ paths, docPathsOK paths →
      docPathsOK
        (match rootDef { sch with types := (convertAllTypes cfg sch).2 }
            { sch with types := (convertAllTypes cfg sch).2 }.mutationName with
        | some m =>
          convertMutations cfg { sch with types := (convertAllTypes cfg sch).2 } m
            (if cfg.detectRESTPatternsCfg then detectRESTPatterns cfg sch else []) paths
        | none => paths) := by
    intro paths hp
    split
    · exact docPathsOK_convertMutations _ _ _ _ _ hp
    · exact hp
  have h3 : ∀ paths, docPathsOK paths →
      docPathsOK
        (match rootDef { sch with types := (convertAllTypes cfg sch).2 }
            { sch with types := (convertAllTypes cfg sch).2 }.subscriptionName with
        | some s =>
          convertSubscriptions cfg { sch with types := (convertAllTypes cfg sch).2 } s
            paths
        | none => paths) := by
    intro paths hp
    split
    · exact docPathsOK_convertSubscriptions _ _ _ _ hp
    · exact hp
  exact h3 _ (h2 _ (h1 _ h0))

/-- Claim C10: every operation registered at any path of the output document
— whether from a consolidated REST pattern, a 1:1 query or mutation mapping,
a sub-resource endpoint, or a subscription — has a non-empty responses map
containing a `"200"` entry. -/
theorem c10_every_operation_has_200 (cfg : Config) (src : Str) (sch : GqlSchema)
    (k : Str) (pi : PathItem) (op : Operation)
    (hlk : lookupKV (convert cfg src sch).paths k = some pi)
    (hop : opOfPathItem pi op) :
    (lookupKV op.responses (str "200")).isSome = true ∧ op.responses ≠ [] := by
  have h200 : (lookupKV op.responses (str "200")).isSome = true :=
    docPathsOK_convert cfg src sch (k, pi) (lookupKV_mem hlk) op hop
  refine ⟨h200, ?_⟩
  intro hnil
  rw [hnil] at h200
  simp at h200

/-- The path item registered at `/users` in the converted CRUD scenario. -/
def c10WitnessItem : PathItem :=
  (lookupKV (convert defaultConfig [] exCrudSchema).paths (str "/users")).getD
    emptyPathItem

/-- Its `GET` operation (the consolidated list operation). -/
def c10WitnessOp : Operation := c10WitnessItem.get.getD {}

/-- Witness for claim C10: the list operation at `/users` in the CRUD
scenario has a non-empty responses map with a `200` entry. -/
theorem c10_every_operation_has_200_witness :
    (lookupKV c10WitnessOp.responses (str "200")).isSome = true ∧
    c10WitnessOp.responses ≠ [] :=
  c10_every_operation_has_200 defaultConfig [] exCrudSchema (str "/users")
    c10WitnessItem c10WitnessOp (by rfl) (Or.inl (by rfl))

/-! ### Claim C3: support lemmas -/

theorem renameTypeClaimed_name (td : TypeDef) : (renameTypeClaimed td).name = td.name := by
  unfold renameTypeClaimed
  split <;> rfl

theorem renameTypeClaimed_kind (td : TypeDef) : (renameTypeClaimed td).kind = td.kind := by
  unfold renameTypeClaimed
  split <;> rfl

theorem renameFieldClaimed_list (f : FieldDef) (e : GqlType) (nn : Bool)
    (hft : f.type = GqlType.list e nn) : renameFieldClaimed f = f := by
  unfold renameFieldClaimed
  rw [hft]

theorem mem_fields_renameTypeClaimed_of_list (td : TypeDef) (f : FieldDef)
    (e : GqlType) (nn : Bool) (hf : f ∈ td.fields) (hft : f.type = GqlType.list e nn) :
    f ∈ (renameTypeClaimed td).fields := by
  unfold renameTypeClaimed
  split
  · exact List.mem_map.mpr ⟨f, hf, renameFieldClaimed_list f e nn hft⟩
  · exact hf

theorem convertTypeFields_lookup_none (cfg : Config) (sch : GqlSchema) (k : Str) :
    ∀ (fs : List FieldDef) (props : List (Str × OASchema)) (req : List Str),
    (∀ g ∈ fs, propKeyOf cfg sch g ≠ some k) → lookupKV props k = none →
    lookupKV (convertTypeFields cfg sch fs props req).1 k = none := by
  intro fs
  induction fs with
  | nil => intro props req _ h0; exact h0
  | cons g rest ih =>
    intro props req hnw h0
    unfold convertTypeFields
    rcases hpf : processField cfg sch g with ⟨o, g'⟩
    cases o with
    | none =>
      dsimp only
      exact ih props req (fun x hx => hnw x (List.mem_cons_of_mem g hx)) h0
    | some kv =>
      obtain ⟨k0, v0⟩ := kv
      dsimp only
      have hk0 : k0 ≠ k := by
        intro he
        apply hnw g (List.mem_cons_self g rest)
        rw [propKeyOf, hpf, he]
        rfl
      apply ih _ _ (fun x hx => hnw x (List.mem_cons_of_mem g hx))
      rw [lookupKV_insertKV_ne _ _ _ _ hk0]
      exact h0

theorem convertAllTypes_lookup (cfg : Config) (sch : GqlSchema) (td : TypeDef)
    (s : OASchema) (hb : isBuiltInType td.name = false)
    (hkind : td.kind = TypeKind.object ∨ td.kind = TypeKind.inputObject)
    (hs : (convertType cfg sch td).1 = some s) :
    ∀ (l : List TypeDef) (acc : List (Str × OASchema) × List TypeDef),
    (∀ t ∈ l, t.name = td.name → t = td) →
    ((td ∈ l) ∨ lookupKV acc.1 td.name = some s) →
    lookupKV (l.foldl (convertTypeStep cfg sch) acc).1 td.name = some s := by
  intro l
  induction l with
  | nil =>
    intro acc _ hsrc
    rcases hsrc with h | h
    · exact absurd h (List.not_mem_nil td)
    · exact h
  | cons t rest ih =>
    intro acc huni hsrc
    rw [List.foldl_cons]
    by_cases hname : t.name = td.name
    · have ht : t = td := huni t (List.mem_cons_self t rest) hname
      subst ht
      have hstep : lookupKV (convertTypeStep cfg sch acc t).1 t.name = some s := by
        unfold convertTypeStep
        rw [if_neg (by simp [hb])]
        rcases hct : convertType cfg sch t with ⟨o, t'⟩
        have ho : o = some s := by rw [hct] at hs; exact hs
        subst ho
        rcases hkind with hk | hk <;> (rw [hk]; dsimp only; simp)
      exact ih _ (fun x hx he => huni x (List.mem_cons_of_mem t hx) he)
        (Or.inr hstep)
    · have hstep : lookupKV (convertTypeStep cfg sch acc t).1 td.name =
          lookupKV acc.1 td.name := by
        unfold convertTypeStep
        split
        · rfl
        · split
          · exact lookupKV_insertKV_ne _ _ _ _ hname
          · exact lookupKV_insertKV_ne _ _ _ _ hname
          · exact lookupKV_insertKV_ne _ _ _ _ hname
          · rcases hct : convertType cfg sch t with ⟨o, t'⟩
            cases o with
            | some s' => exact lookupKV_insertKV_ne _ _ _ _ hname
            | none => rfl
      apply ih _ (fun x hx he => huni x (List.mem_cons_of_mem t hx) he)
      rcases hsrc with h | h
      · rcases List.mem_cons.mp h with rfl | h'
        · exact absurd rfl hname
        · exact Or.inl h'
      · exact Or.inr (by rw [hstep]; exact h)

/-- Whether a field triggers a sub-resource endpoint (the guard of the
sub-resource loop). -/
def subEmitGuard (f' : FieldDef) : Bool :=
  match f'.type.elem? with
  | some e => !e.namedType.isEmpty && !isScalarType e.namedType
  | none => false

/-- The element type name of a list field (empty otherwise). -/
def subElemName (f' : FieldDef) : Str :=
  match f'.type.elem? with
  | some e => e.namedType
  | none => []

theorem subResourceOp_congr_name (td td' : TypeDef) (f : FieldDef) (en : Str)
    (h : td'.name = td.name) : subResourceOp td' f en = subResourceOp td f en := by
  unfold subResourceOp
  rw [h]

theorem subResourceKey_congr_name (cfg : Config) (td td' : TypeDef) (f : FieldDef)
    (h : td'.name = td.name) : subResourceKey cfg td' f = subResourceKey cfg td f := by
  unfold subResourceKey
  rw [h]

theorem subInner_lookup (cfg : Config) (td' : TypeDef) (k : Str) (v : Operation) :
    ∀ (fl : List FieldDef) (paths : List (Str × PathItem)),
    ((∃ f' ∈ fl, subEmitGuard f' = true ∧ subResourceKey cfg td' f' = k) ∨
      lookupGet paths k = some v) →
    (∀ f' ∈ fl, subEmitGuard f' = true → subResourceKey cfg td' f' = k →
      subResourceOp td' f' (subElemName f') = v) →
    lookupGet
      (fl.foldl
        (fun acc f =>
          match f.type.elem? with
          | some e =>
            if !e.namedType.isEmpty then
              if isScalarType e.namedType then acc
              else setGet acc (subResourceKey cfg td' f) (subResourceOp td' f e.namedType)
            else acc
          | none => acc)
        paths) k = some v := by
  intro fl
  induction fl with
  | nil =>
    intro paths hsrc _
    rcases hsrc with ⟨f', hf', _⟩ | h
    · exact absurd hf' (List.not_mem_nil f')
    · exact h
  | cons g rest ih =>
    intro paths hsrc huni
    rw [List.foldl_cons]
    have hrest_uni : ∀ f' ∈ rest, subEmitGuard f' = true →
        subResourceKey cfg td' f' = k →
        subResourceOp td' f' (subElemName f') = v :=
      fun x hx => huni x (List.mem_cons_of_mem g hx)
    cases hel : g.type.elem? with
    | none =>
      dsimp only [hel]
      apply ih _ ?_ hrest_uni
      rcases hsrc with ⟨f', hf', hg, hk⟩ | h
      · rcases List.mem_cons.mp hf' with rfl | hf''
        · rw [subEmitGuard, hel] at hg
          simp at hg
        · exact Or.inl ⟨f', hf'', hg, hk⟩
      · exact Or.inr h
    | some e =>
      dsimp only [hel]
      by_cases hne : (!e.namedType.isEmpty) = true
      · rw [if_pos hne]
        by_cases hsc : isScalarType e.namedType = true
        · rw [if_pos hsc]
          apply ih _ ?_ hrest_uni
          rcases hsrc with ⟨f', hf', hg, hk⟩ | h
          · rcases List.mem_cons.mp hf' with rfl | hf''
            · rw [subEmitGuard, hel] at hg
              simp [hsc] at hg
            · exact Or.inl ⟨f', hf'', hg, hk⟩
          · exact Or.inr h
        · rw [if_neg hsc]
          have hg : subEmitGuard g = true := by
            rw [subEmitGuard, hel]
            simp at hne hsc ⊢
            exact ⟨hne, hsc⟩
          by_cases hkk : subResourceKey cfg td' g = k
          · have hval : subResourceOp td' g (subElemName g) = v :=
              huni g (List.mem_cons_self g rest) hg hkk
            rw [subElemName, hel] at hval
            apply ih _ ?_ hrest_uni
            refine Or.inr ?_
            rw [hkk, hval, lookupGet_setGet_self]
          · apply ih _ ?_ hrest_uni
            rcases hsrc with ⟨f', hf', hg', hk'⟩ | h
            · rcases List.mem_cons.mp hf' with rfl | hf''
              · exact absurd hk' hkk
              · exact Or.inl ⟨f', hf'', hg', hk'⟩
            · exact Or.inr (by rw [lookupGet_setGet_ne _ _ _ _ hkk]; exact h)
      · rw [if_neg hne]
        apply ih _ ?_ hrest_uni
        rcases hsrc with ⟨f', hf', hg, hk⟩ | h
        · rcases List.mem_cons.mp hf' with rfl | hf''
          · rw [subEmitGuard, hel] at hg
            simp at hne
            simp [hne] at hg
          · exact Or.inl ⟨f', hf'', hg, hk⟩
        · exact Or.inr h

theorem subResourcePass_lookup (cfg : Config) (sch : GqlSchema) (k : Str)
    (v : Operation)
    (paths : List (Str × PathItem))
    (hsrc : (∃ td' ∈ sch.types, isBuiltInType td'.name = false ∧
        td'.kind = TypeKind.object ∧
        ∃ f' ∈ td'.fields, subEmitGuard f' = true ∧ subResourceKey cfg td' f' = k) ∨
      lookupGet paths k = some v)
    (huni : ∀ td' ∈ sch.types, isBuiltInType td'.name = false →
      td'.kind = TypeKind.object → ∀ f' ∈ td'.fields, subEmitGuard f' = true →
      subResourceKey cfg td' f' = k → subResourceOp td' f' (subElemName f') = v) :
    lookupGet (subResourcePass cfg sch paths) k = some v := by
  unfold subResourcePass
  revert paths hsrc
  suffices h : ∀ (l : List TypeDef), (∀ td' ∈ l, isBuiltInType td'.name = false →
      td'.kind = TypeKind.object → ∀ f' ∈ td'.fields, subEmitGuard f' = true →
      subResourceKey cfg td' f' = k → subResourceOp td' f' (subElemName f') = v) →
    ∀ (paths : List (Str × PathItem)),
    ((∃ td' ∈ l, isBuiltInType td'.name = false ∧ td'.kind = TypeKind.object ∧
        ∃ f' ∈ td'.fields, subEmitGuard f' = true ∧ subResourceKey cfg td' f' = k) ∨
      lookupGet paths k = some v) →
    lookupGet
      (l.foldl
        (fun acc td =>
          if isBuiltInType td.name || td.kind ≠ TypeKind.object then acc
          else
            td.fields.foldl
              (fun acc f =>
                match f.type.elem? with
                | some e =>
                  if !e.namedType.isEmpty then
                    if isScalarType e.namedType then acc
                    else setGet acc (subResourceKey cfg td f) (subResourceOp td f e.namedType)
                  else acc
                | none => acc)
              acc)
        paths) k = some v by
    intro paths hsrc
    exact h sch.types huni paths hsrc
  intro l
  induction l with
  | nil =>
    intro _ paths hsrc
    rcases hsrc with ⟨t, ht, _⟩ | h
    · exact absurd ht (List.not_mem_nil t)
    · exact h
  | cons t rest ih =>
    intro huni' paths hsrc
    rw [List.foldl_cons]
    have hrest_uni : ∀ td' ∈ rest, isBuiltInType td'.name = false →
        td'.kind = TypeKind.object → ∀ f' ∈ td'.fields, subEmitGuard f' = true →
        subResourceKey cfg td' f' = k →
        subResourceOp td' f' (subElemName f') = v :=
      fun x hx => huni' x (List.mem_cons_of_mem t hx)
    by_cases hguard : (isBuiltInType t.name || t.kind ≠ TypeKind.object) = true
    · rw [if_pos hguard]
      apply ih hrest_uni
      rcases hsrc with ⟨t', ht', hb', hk', hrest⟩ | h
      · rcases List.mem_cons.mp ht' with rfl | ht''
        · rw [hb', hk'] at hguard
          simp at hguard
        · exact Or.inl ⟨t', ht'', hb', hk', hrest⟩
      · exact Or.inr h
    · rw [if_neg (by simpa using hguard)]
      have hguard' : isBuiltInType t.name = false ∧ t.kind = TypeKind.object := by
        simpa using hguard
      have hb := hguard'.1
      have hk := hguard'.2
      rcases hsrc with ⟨t', ht', hb', hk', hrest⟩ | h
      · rcases List.mem_cons.mp ht' with rfl | ht''
        · -- the witness type is this one: its inner fold establishes the value
          apply ih hrest_uni
          refine Or.inr ?_
          exact subInner_lookup cfg t' k v t'.fields paths (Or.inl hrest)
            (fun f' hf' => huni' t' (List.mem_cons_self t' rest) hb' hk' f' hf')
        · exact ih hrest_uni _ (Or.inl ⟨t', ht'', hb', hk', hrest⟩)
      · apply ih hrest_uni
        refine Or.inr ?_
        exact subInner_lookup cfg t k v t.fields paths (Or.inr h)
          (fun f' hf' => huni' t (List.mem_cons_self t rest) hb hk f' hf')

theorem lookupGet_mutationsCreateStage (cfg : Config) (sch : GqlSchema)
    (mt : TypeDef) (acc : List (Str × PathItem) × List Str) (e : Str × RESTPattern)
    (k : Str) (op : Operation) (h : lookupGet acc.1 k = some op) :
    lookupGet (mutationsCreateStage cfg sch mt acc e).1 k = some op := by
  unfold mutationsCreateStage
  dsimp only
  split
  · split
    · rw [lookupGet_setPost]
      exact lookupGet_ensurePath_of_some _ _ _ _ h
    · exact lookupGet_ensurePath_of_some _ _ _ _ h
  · exact h

theorem lookupGet_mutationsUpdateStage (cfg : Config) (sch : GqlSchema)
    (mt : TypeDef) (acc : List (Str × PathItem) × List Str) (e : Str × RESTPattern)
    (k : Str) (op : Operation) (h : lookupGet acc.1 k = some op) :
    lookupGet (mutationsUpdateStage cfg sch mt acc e).1 k = some op := by
  unfold mutationsUpdateStage
  dsimp only
  split
  · split
    · rw [lookupGet_setPut]
      exact lookupGet_ensurePath_of_some _ _ _ _ h
    · exact lookupGet_ensurePath_of_some _ _ _ _ h
  · exact h

theorem lookupGet_mutationsDeleteStage (cfg : Config) (sch : GqlSchema)
    (mt : TypeDef) (acc : List (Str × PathItem) × List Str) (e : Str × RESTPattern)
    (k : Str) (op : Operation) (h : lookupGet acc.1 k = some op) :
    lookupGet (mutationsDeleteStage cfg sch mt acc e).1 k = some op := by
  unfold mutationsDeleteStage
  dsimp only
  split
  · split
    · rw [lookupGet_setDelete]
      exact lookupGet_ensurePath_of_some _ _ _ _ h
    · exact lookupGet_ensurePath_of_some _ _ _ _ h
  · exact h

theorem lookupGet_convertMutations (cfg : Config) (sch : GqlSchema)
    (mutationType : TypeDef) (restPatterns : List (Str × RESTPattern))
    (paths : List (Str × PathItem)) (k : Str) (op : Operation)
    (h : lookupGet paths k = some op) :
    lookupGet (convertMutations cfg sch mutationType restPatterns paths) k =
      some op := by
  unfold convertMutations
  dsimp only
  apply foldl_inv (fun paths => lookupGet paths k = some op)
  · exact foldl_inv (fun acc => lookupGet acc.1 k = some op)
      (mutationsPatternStep cfg sch mutationType) restPatterns (paths, []) h
      (fun b a hb =>
        lookupGet_mutationsDeleteStage cfg sch mutationType _ a k op
          (lookupGet_mutationsUpdateStage cfg sch mutationType _ a k op
            (lookupGet_mutationsCreateStage cfg sch mutationType b a k op hb)))
  · intro b f hb
    split
    · exact hb
    · rw [lookupGet_setPost]
      exact hb

theorem lookupGet_convertSubscriptions (cfg : Config) (sch : GqlSchema)
    (subscriptionType : TypeDef) (paths : List (Str × PathItem)) (k : Str)
    (op : Operation) (h : lookupGet paths k = some op)
    (hne : ∀ g ∈ subscriptionType.fields, buildSubscriptionPath cfg g ≠ k) :
    lookupGet (convertSubscriptions cfg sch subscriptionType paths) k = some op := by
  unfold convertSubscriptions
  revert paths h
  suffices hh : ∀ (l : List FieldDef), (∀ g ∈ l, buildSubscriptionPath cfg g ≠ k) →
      ∀ (paths : List (Str × PathItem)), lookupGet paths k = some op →
      lookupGet
        (l.foldl
          (fun acc f =>
            if hasPrefixL f.name (str "__") then acc
            else setGet acc (buildSubscriptionPath cfg f) (convertSubscriptionField sch f))
          paths) k = some op by
    intro paths h
    exact hh subscriptionType.fields hne paths h
  intro l
  induction l with
  | nil => intro _ paths h; exact h
  | cons g rest ih =>
    intro hne' paths h
    rw [List.foldl_cons]
    apply ih (fun x hx => hne' x (List.mem_cons_of_mem g hx))
    split
    · exact h
    · rw [lookupGet_setGet_ne _ _ _ _ (hne' g (List.mem_cons_self g rest))]
      exact h

theorem find?_name_map_rename (qn : Str) :
    ∀ l : List TypeDef,
      (((l.map renameTypeClaimed).find? (fun td => td.name = qn)).isSome) =
        ((l.find? (fun td => td.name = qn)).isSome) := by
  intro l
  induction l with
  | nil => rfl
  | cons t rest ih =>
    rw [List.map_cons]
    by_cases hn : t.name = qn
    · rw [List.find?_cons_of_pos _
          (by simp only [decide_eq_true_eq, renameTypeClaimed_name t]; exact hn),
        List.find?_cons_of_pos _ (by simp [hn])]
      rfl
    · rw [List.find?_cons_of_neg _
          (by simp only [decide_eq_true_eq, renameTypeClaimed_name t]; exact hn),
        List.find?_cons_of_neg _ (by simp [hn])]
      exact ih

/-- Claim C3 (amended): for an object type `T` with a field `f` whose type
is a non-null list of a non-scalar object type `E`, the component schema for
`T` contains no property `f` (neither in `properties` nor in `required`),
and — PROVIDED the schema has a query root type (the sub-resource pass runs
inside the query conversion and is skipped entirely when the schema has
none) — the output document registers `GET /{plural(lower T)}/{id}/{f}`
with a 200 response that is an array of `$ref` to `E`.  The side conditions
rule out key collisions: unique type names, no other field writing property
key `f`, no other sub-resource emitter or subscription producing the same
path. -/
theorem c3_subresource_amended (cfg : Config) (src : Str) (sch : GqlSchema)
    (td : TypeDef) (f : FieldDef) (en : Str) (lnn fnn : Bool)
    (htd : td ∈ sch.types)
    (hkind : td.kind = TypeKind.object)
    (hb : isBuiltInType td.name = false)
    (hf : f ∈ td.fields)
    (hft : f.type = GqlType.list (GqlType.named en lnn) fnn)
    (hens : isScalarType en = false)
    (henb : isBuiltInType en = false)
    (henne : en ≠ [])
    (hq : ∃ qn, sch.queryName = some qn ∧ (lookupType sch qn).isSome = true)
    (hnames : (sch.types.map TypeDef.name).Nodup)
    (hnoprop : ∀ g ∈ td.fields, propKeyOf cfg sch g ≠ some f.name)
    (hsubuniq : ∀ td' ∈ (convertAST cfg sch).types, ∀ f' ∈ td'.fields,
      isBuiltInType td'.name = false → td'.kind = TypeKind.object →
      subEmitGuard f' = true → subResourceKey cfg td' f' = subResourceKey cfg td f →
      td'.name = td.name ∧ f' = f)
    (hnosub : ∀ st, rootDef (convertAST cfg sch) sch.subscriptionName = some st →
      ∀ g ∈ st.fields, buildSubscriptionPath cfg g ≠ subResourceKey cfg td f) :
    (∃ s, lookupKV (convert cfg src sch).components.schemas td.name = some s ∧
      lookupKV s.properties f.name = none ∧ f.name ∉ s.required) ∧
    lookupGet (convert cfg src sch).paths (subResourceKey cfg td f) =
      some (subResourceOp td f en) ∧
    (subResourceOp td f en).responses =
      jsonResponse200
        { emptySchema with
          type := str "array",
          items := some { emptySchema with
            ref := str "#/components/schemas/" ++ en } } := by
  have hcomp : (convert cfg src sch).components.schemas = (convertAllTypes cfg sch).1 :=
    rfl
  have hguardf : subEmitGuard f = true := by
    rw [subEmitGuard, hft]
    show (!(GqlType.named en lnn).namedType.isEmpty &&
      !isScalarType (GqlType.named en lnn).namedType) = true
    rw [GqlType.namedType]
    simp [hens, List.isEmpty_iff, henne]
  have helem : subElemName f = en := by
    rw [subElemName, hft]
    rfl
  refine ⟨?_, ?_, rfl⟩
  · -- components part
    refine ⟨{ emptySchema with
        type := str "object",
        properties := (convertTypeFields cfg sch td.fields [] []).1,
        required := (convertTypeFields cfg sch td.fields [] []).2.1,
        description := if !td.description.isEmpty then td.description else [] },
      ?_, ?_, ?_⟩
    · rw [hcomp]
      refine convertAllTypes_lookup cfg sch td _ hb (Or.inl hkind) ?_ sch.types ([], [])
        (fun t ht he => List.inj_on_of_nodup_map hnames ht htd he) (Or.inl htd)
      unfold convertType
      rw [if_neg (by simp [hkind])]
    · exact convertTypeFields_lookup_none cfg sch f.name td.fields [] [] hnoprop rfl
    · rw [convertTypeFields_req_mem]
      rintro (h | ⟨g, hg, hk, _⟩)
      · exact absurd h (List.not_mem_nil _)
      · exact hnoprop g hg hk
  · -- paths part
    obtain ⟨qn, hqn, hql⟩ := hq
    have hql' : (lookupType { sch with types := (convertAllTypes cfg sch).2 } qn).isSome
        = true := by
      unfold lookupType at hql ⊢
      dsimp only
      rw [convertAllTypes_snd]
      rw [find?_name_map_rename]
      exact hql
    obtain ⟨q, hq2⟩ := Option.isSome_iff_exists.mp hql'
    have hsubuniq' : ∀ td' ∈ (convertAllTypes cfg sch).2, ∀ f' ∈ td'.fields,
        isBuiltInType td'.name = false → td'.kind = TypeKind.object →
        subEmitGuard f' = true → subResourceKey cfg td' f' = subResourceKey cfg td f →
        td'.name = td.name ∧ f' = f := hsubuniq
    have hmain : lookupGet
        (convertQueries cfg { sch with types := (convertAllTypes cfg sch).2 } q
          (if cfg.detectRESTPatternsCfg then detectRESTPatterns cfg sch else []) [])
        (subResourceKey cfg td f) = some (subResourceOp td f en) := by
      unfold convertQueries
      dsimp only
      apply subResourcePass_lookup
      · refine Or.inl ⟨renameTypeClaimed td, ?_, ?_, ?_, f, ?_, hguardf, ?_⟩
        · dsimp only
          rw [convertAllTypes_snd]
          exact List.mem_map.mpr ⟨td, htd, rfl⟩
        · rw [renameTypeClaimed_name]
          exact hb
        · rw [renameTypeClaimed_kind]
          exact hkind
        · exact mem_fields_renameTypeClaimed_of_list td f _ fnn hf hft
        · exact subResourceKey_congr_name cfg td _ f (renameTypeClaimed_name td)
      · intro t' ht' hb' hk' f' hf' hg' hkey'
        obtain ⟨hname', rfl⟩ := hsubuniq' t' ht' f' hf' hb' hk' hg' hkey'
        rw [helem]
        exact subResourceOp_congr_name td t' f' en hname'
    have hq4 : rootDef { sch with types := (convertAllTypes cfg sch).2 }
        sch.queryName = some q := by
      rw [hqn]
      exact hq2
    unfold convert
    dsimp only
    rw [hq4]
    dsimp only
    cases hm : rootDef { sch with types := (convertAllTypes cfg sch).2 }
        sch.mutationName with
    | some m =>
      dsimp only
      cases hsub : rootDef { sch with types := (convertAllTypes cfg sch).2 }
          sch.subscriptionName with
      | some st =>
        dsimp only
        exact lookupGet_convertSubscriptions _ _ _ _ _ _
          (lookupGet_convertMutations _ _ _ _ _ _ _ hmain) (hnosub st hsub)
      | none =>
        dsimp only
        exact lookupGet_convertMutations _ _ _ _ _ _ _ hmain
    | none =>
      dsimp only
      cases hsub : rootDef { sch with types := (convertAllTypes cfg sch).2 }
          sch.subscriptionName with
      | some st =>
        dsimp only
        exact lookupGet_convertSubscriptions _ _ _ _ _ _ hmain (hnosub st hsub)
      | none =>
        dsimp only
        exact hmain


/-- Witness for claim C3: `User.posts : [Post!]!` in a schema declaring a
`Query` root type yields `GET /users/{id}/posts` with an array-of-`$ref`
200 response, and no `posts` property in the `User` component. -/
theorem c3_subresource_amended_witness :
    (∃ s, lookupKV (convert defaultConfig [] exSubResSchema).components.schemas
        exListUser.name = some s ∧
      lookupKV s.properties exPostsField.name = none ∧
      exPostsField.name ∉ s.required) ∧
    lookupGet (convert defaultConfig [] exSubResSchema).paths
        (subResourceKey defaultConfig exListUser exPostsField) =
      some (subResourceOp exListUser exPostsField (str "Post")) ∧
    (subResourceOp exListUser exPostsField (str "Post")).responses =
      jsonResponse200
        { emptySchema with
          type := str "array",
          items := some { emptySchema with
            ref := str "#/components/schemas/" ++ str "Post" } } :=
  c3_subresource_amended defaultConfig [] exSubResSchema exListUser exPostsField
    (str "Post") true true (by decide) (by decide) (by decide) (by decide)
    (by decide) (by decide) (by decide) (by decide) ⟨str "Query", by decide⟩
    (by decide) (by decide) (by decide) (fun st hst => nomatch hst)

end GqlToOpenapi
